import Mathlib

/-!
# ParseInsight: the benchmark front end (`web/static/js/app.js`)

A shallow embedding of the results pipeline of `app.js` (the unit formatters
`formatNumber`, `formatDuration`, `formatBytes`, the table and chart builders
`displayTable`, `displayCharts`, and the request orchestrator `runBenchmark`)
together with the part of the JavaScript run-time they rely on.

## Numbers

A JavaScript Number is an IEEE-754 binary64 value.  `JSNumber.fin m e` is the
finite value `m · 2 ^ e`; every arithmetic result is rounded to binary64
(round to nearest, ties to even, with gradual underflow and overflow to an
infinity) by `roundToDouble`.  The sign of zero is not represented.

`toFixed` follows ECMA-262: it rounds the exact value of the Number, and from
`10 ^ 21` on it returns the `Number::toString` text (shortest digits, exponent
form).  `toLocaleString` formats the shortest decimal numeral that denotes the
Number, as `Intl.NumberFormat` does.

`Math.log` is implementation-approximated in ECMAScript.  The only use the
program makes of it is `Math.floor(Math.log(bytes) / Math.log(k))`; the
embedding takes this index to be the floor of the real quotient
(`mathFloorLog`).

## State

The document, the two chart handles and the calls into the environment
(`alert`, `fetch`, the chart engine) are explicit state: `Page` and `Charts`.
An exception is a value of `JSError`.
-/

namespace ParseInsight

/-! ## JavaScript numbers -/

/-- A JavaScript Number: `NaN`, an infinity, or the finite value `m · 2 ^ e`. -/
inductive JSNumber where
  | nan
  | posInf
  | negInf
  | fin (m : Int) (e : Int)
deriving DecidableEq, Repr

namespace JSNumber

/-- The Number with the value of a natural number literal. -/
def ofNat (n : Nat) : JSNumber := fin n 0

/-- Numerator of `|m · 2 ^ e|` over the denominator `absDen e`. -/
def absNum (m e : Int) : Nat := m.natAbs * 2 ^ e.toNat

/-- Denominator of `|m · 2 ^ e|`: a power of two. -/
def absDen (e : Int) : Nat := 2 ^ (-e).toNat

/-- Number of binary digits, by halving (`fuel` bounds the number of steps). -/
def bitLengthAux : Nat → Nat → Nat
  | 0, _ => 0
  | fuel + 1, n => if n = 0 then 0 else bitLengthAux fuel (n / 2) + 1

/-- Number of binary digits of `n`. -/
def bitLength (n : Nat) : Nat := bitLengthAux n n

/-- For `N, D > 0`: the integer `E` with `2 ^ E ≤ N / D < 2 ^ (E + 1)`. -/
def floorLog2 (N D : Nat) : Int :=
  let d : Int := (bitLength N : Int) - (bitLength D : Int)
  if D * 2 ^ d.toNat ≤ N * 2 ^ (-d).toNat then d else d - 1

/-- The binary64 value nearest to `± N / D` (ties to even): 53 significant bits,
least exponent `-1074`, and an infinity from `2 ^ 1024` on. -/
def roundToDouble (neg : Bool) (N D : Nat) : JSNumber :=
  if N = 0 then fin 0 0 else
    let q : Int := max (floorLog2 N D - 52) (-1074)
    let A := N * 2 ^ (-q).toNat
    let B := D * 2 ^ q.toNat
    let t := A / B
    let r := A % B
    let mant := if 2 * r < B then t else if B < 2 * r then t + 1
      else if t % 2 = 0 then t else t + 1
    let mq : Nat × Int := if mant = 2 ^ 53 then (2 ^ 52, q + 1) else (mant, q)
    if mq.1 = 0 then fin 0 0
    else if 971 < mq.2 then (if neg then negInf else posInf)
    else fin (if neg then -(mq.1 : Int) else mq.1) mq.2

/-- The comparison `x < y` of two Numbers (false when either is `NaN`). -/
def lt : JSNumber → JSNumber → Bool
  | nan, _ => false
  | _, nan => false
  | posInf, _ => false
  | _, negInf => false
  | negInf, _ => true
  | _, posInf => true
  | fin m₁ e₁, fin m₂ e₂ =>
    decide (m₁ * 2 ^ (e₁ - min e₁ e₂).toNat < m₂ * 2 ^ (e₂ - min e₁ e₂).toNat)

/-- The strict equality `x === 0` for a Number `x`. -/
def isZero : JSNumber → Bool
  | fin m _ => decide (m = 0)
  | _ => false

/-- The quotient `x / y` of two Numbers. -/
def div : JSNumber → JSNumber → JSNumber
  | nan, _ => nan
  | _, nan => nan
  | posInf, posInf => nan
  | posInf, negInf => nan
  | negInf, posInf => nan
  | negInf, negInf => nan
  | posInf, fin m _ => if m < 0 then negInf else posInf
  | negInf, fin m _ => if m < 0 then posInf else negInf
  | fin _ _, posInf => fin 0 0
  | fin _ _, negInf => fin 0 0
  | fin m₁ e₁, fin m₂ e₂ =>
    if m₂ = 0 then
      (if m₁ = 0 then nan else if m₁ < 0 then negInf else posInf)
    else
      roundToDouble (decide (m₁ < 0) != decide (m₂ < 0))
        (absNum m₁ e₁ * absDen e₂) (absDen e₁ * absNum m₂ e₂)

/-! ### Decimal renderings -/

/-- Among the decimal candidates `(s, n)` (standing for `s · 10 ^ (n - k)`), the one
nearest to `N / D`; on a tie the even `s`. -/
def pickClosest (N D k : Nat) : List (Nat × Nat) → Option (Nat × Nat)
  | [] => none
  | sn :: rest =>
    match pickClosest N D k rest with
    | none => some sn
    | some best =>
      let err := fun (p : Nat × Nat) => ((p.1 * 10 ^ (p.2 - k) * D : Int) - N).natAbs
      if err sn < err best then some sn
      else if err best < err sn then some best
      else if sn.1 % 2 = 0 then some sn else some best

/-- The `k`-digit decimals `s · 10 ^ (n - k)`, `10 ^ (k - 1) ≤ s < 10 ^ k`, next to
`N / D` that denote the Number `target` (`d` is the digit count of `⌊N / D⌋`). -/
def decimalCandidates (target : JSNumber) (N D k d : Nat) : List (Nat × Nat) :=
  let c := fun (n : Nat) => N / (D * 10 ^ (n - k))
  [(c d, d), (c d + 1, d), (c (d + 1), d + 1), (c (d + 1) + 1, d + 1)].filter fun sn =>
    decide (10 ^ (k - 1) ≤ sn.1) && decide (sn.1 < 10 ^ k) &&
      decide (roundToDouble false (sn.1 * 10 ^ (sn.2 - k)) 1 = target)

/-- Search for the least digit count `k` with a decimal denoting `target`
(`Number::toString`, step 5); seventeen digits always suffice for a binary64. -/
def shortestDecimal (target : JSNumber) (N D d : Nat) : Nat → Nat → Nat × Nat × Nat
  | 0, k => (k, N / (D * 10 ^ (d - k)), d)
  | fuel + 1, k =>
    match pickClosest N D k (decimalCandidates target N D k d) with
    | some sn => (k, sn.1, sn.2)
    | none => shortestDecimal target N D d fuel (k + 1)

/-- The `Number::toString` rendering of a finite `N / D ≥ 10 ^ 21`: the shortest digit
string that denotes the same Number, in exponential form `d.ddde+x`. -/
def toStringLarge (N D : Nat) : String :=
  let d := (Nat.repr (N / D)).length
  let ksn := shortestDecimal (roundToDouble false N D) N D d 17 1
  let digits := (Nat.repr ksn.2.1).toList
  let expo := "e+" ++ Nat.repr (ksn.2.2 - 1)
  if ksn.1 = 1 then String.mk digits ++ expo
  else String.mk (digits.take 1) ++ "." ++ String.mk (digits.drop 1) ++ expo

/-- Steps 8-10 of `Number.prototype.toFixed`: the digits of `n` with a decimal point
before the last `f` of them, zero-padded on the left to `f + 1` digits. -/
def fixedDigits (n f : Nat) : String :=
  let m := (Nat.repr n).toList
  if f = 0 then String.mk m
  else
    let m := if m.length ≤ f then List.replicate (f + 1 - m.length) '0' ++ m else m
    String.mk (m.take (m.length - f)) ++ "." ++ String.mk (m.drop (m.length - f))

/-- The method `Number.prototype.toFixed(f)` for `0 ≤ f ≤ 100`: the decimal with `f`
fraction digits nearest to `x` (the larger one on a tie); `Number::toString` for
`NaN`, the infinities and magnitudes from `10 ^ 21` on. -/
def toFixed (x : JSNumber) (f : Nat) : String :=
  match x with
  | nan => "NaN"
  | posInf => "Infinity"
  | negInf => "-Infinity"
  | fin m e =>
    let s := if m < 0 then "-" else ""
    let N := absNum m e
    let D := absDen e
    if 10 ^ 21 * D ≤ N then s ++ toStringLarge N D
    else s ++ fixedDigits ((2 * N * 10 ^ f + D) / (2 * D)) f

/-- Insert a comma after every third character of a reversed digit string
(`cnt` counts the digits of the current group). -/
def groupRev : List Char → Nat → List Char
  | [], _ => []
  | c :: rest, cnt =>
    if cnt = 3 then ',' :: c :: groupRev rest 1 else c :: groupRev rest (cnt + 1)

/-- The `en-US` grouping of a digit string: commas between groups of three digits
counted from the right. -/
def groupThousands (ds : List Char) : List Char := (groupRev ds.reverse 0).reverse

/-- The integer that the shortest decimal numeral denoting the Number nearest to `N / D`
stands for, for `N / D ≥ 2 ^ 53` (`String(2 ** 64)` is `"18446744073709552000"`). -/
def shortestInteger (N D : Nat) : Nat :=
  let d := (Nat.repr (N / D)).length
  let ksn := shortestDecimal (roundToDouble false N D) N D d 17 1
  ksn.2.1 * 10 ^ (ksn.2.2 - ksn.1)

/-- The call `x.toLocaleString('en-US', { maximumFractionDigits: 0 })`.  As
`Intl.NumberFormat` does, it formats the shortest decimal numeral that denotes `x`,
rounded to an integer (half away from zero) and grouped by thousands.  Below
`2 ^ 53` in magnitude the result is the integer nearest to `x`; from there on `x` is
an integer whose digits past the shortest numeral read as zeros. -/
def toLocaleString (x : JSNumber) : String :=
  match x with
  | nan => "NaN"
  | posInf => "∞"
  | negInf => "-∞"
  | fin m e =>
    let s := if m < 0 then "-" else ""
    let N := absNum m e
    let D := absDen e
    let r := if N < 2 ^ 53 * D then (2 * N + D) / (2 * D) else shortestInteger N D
    s ++ String.mk (groupThousands (Nat.repr r).toList)

/-- Whether a string is a run of digits, a point and two digits: a decimal numeral with
two decimals. -/
def hasTwoDecimals (s : String) : Bool :=
  let whole := s.toList.take (s.toList.length - 3)
  let tail := s.toList.drop (s.toList.length - 3)
  !whole.isEmpty && whole.all Char.isDigit &&
    match tail with
    | [p, a, b] => p == '.' && a.isDigit && b.isDigit
    | _ => false

end JSNumber

/-! ### `Math` -/

/-- An integral Number: what `Math.floor` can return. -/
inductive IntegralNumber where
  | nan
  | posInf
  | negInf
  | int (i : Int)
deriving DecidableEq, Repr

/-- For `n ≥ 1`: the greatest `i` with `k ^ i ≤ n`, by repeated division by `k`. -/
def natLogAux (k : Nat) : Nat → Nat → Nat
  | 0, _ => 0
  | fuel + 1, n => if n < k then 0 else natLogAux k fuel (n / k) + 1

/-- For `0 < N < D`: the least `j ≥ 1` with `D ≤ N · k ^ j`, searched upwards from `j`. -/
def natCLogAux (k N D : Nat) : Nat → Nat → Nat
  | 0, j => j
  | fuel + 1, j => if D ≤ N * k ^ j then j else natCLogAux k N D fuel (j + 1)

/-- The expression `Math.floor(Math.log(x) / Math.log(k))` for an integer `k > 1`,
taken over the reals: the greatest integer `i` with `k ^ i ≤ x` for a finite
`x > 0`, `-∞` at zero, `NaN` for a negative or `NaN` argument. -/
def mathFloorLog (x : JSNumber) (k : Nat) : IntegralNumber :=
  match x with
  | .nan => .nan
  | .negInf => .nan
  | .posInf => .posInf
  | .fin m e =>
    if m < 0 then .nan
    else if m = 0 then .negInf
    else
      let N := JSNumber.absNum m e
      let D := JSNumber.absDen e
      if D ≤ N then .int (natLogAux k (N / D) (N / D))
      else .int (-(natCLogAux k N D D 1 : Int))

/-- The call `Math.pow(k, i)` for an integer `k > 1` and an integral exponent. -/
def mathPow (k : Nat) : IntegralNumber → JSNumber
  | .nan => .nan
  | .posInf => .posInf
  | .negInf => .fin 0 0
  | .int i =>
    if 0 ≤ i then JSNumber.roundToDouble false (k ^ i.toNat) 1
    else JSNumber.roundToDouble false 1 (k ^ (-i).toNat)

/-! ## Values and exceptions -/

/-- The value of a numeric property read from a parsed result record: `undefined`
when the property is absent, otherwise a Number. -/
inductive JSValue where
  | undefined
  | number (x : JSNumber)
deriving DecidableEq, Repr

/-- The abstract operation `ToNumber`. -/
def JSValue.toNumber : JSValue → JSNumber
  | .undefined => .nan
  | .number x => x

/-- An exception thrown by the run-time. -/
inductive JSError where
  | typeError (message : String)
deriving DecidableEq, Repr

/-- The method call `v.toFixed(f)`: a `TypeError` on `undefined`. -/
def JSValue.toFixed (v : JSValue) (f : Nat) : Except JSError String :=
  match v with
  | .undefined => .error (.typeError "Cannot read properties of undefined (reading 'toFixed')")
  | .number x => .ok (x.toFixed f)

/-- The method call `v.toLocaleString('en-US', { maximumFractionDigits: 0 })`: a
`TypeError` on `undefined`. -/
def JSValue.toLocaleString (v : JSValue) : Except JSError String :=
  match v with
  | .undefined =>
    .error (.typeError "Cannot read properties of undefined (reading 'toLocaleString')")
  | .number x => .ok x.toLocaleString

/-- The strict equality `v === 0`. -/
def JSValue.strictEqZero : JSValue → Bool
  | .undefined => false
  | .number x => x.isZero

/-! ## Unit formatters (`app.js`, lines 272-297) -/

/-- Function `formatNumber(num)`: format number with commas. -/
def formatNumber (num : JSValue) : Except JSError String :=
  num.toLocaleString

/-- Function `formatDuration(ns)`: format duration in nanoseconds to human readable. -/
def formatDuration (ns : JSValue) : Except JSError String :=
  if ns.toNumber.lt (.ofNat 1000) then do
    let s ← ns.toFixed 0
    pure (s ++ " ns")
  else if ns.toNumber.lt (.ofNat 1000000) then
    pure ((ns.toNumber.div (.ofNat 1000)).toFixed 2 ++ " μs")
  else if ns.toNumber.lt (.ofNat 1000000000) then
    pure ((ns.toNumber.div (.ofNat 1000000)).toFixed 2 ++ " ms")
  else
    pure ((ns.toNumber.div (.ofNat 1000000000)).toFixed 2 ++ " s")

/-- The array `sizes` of `formatBytes`. -/
def sizes : List String := ["B", "KB", "MB", "GB"]

/-- The element `sizes[i]` converted to a string: `"undefined"` off the array. -/
def sizesAt : IntegralNumber → String
  | .int (.ofNat i) => (sizes.get? i).getD "undefined"
  | _ => "undefined"

/-- Function `formatBytes(bytes)`: format bytes to human readable. -/
def formatBytes (bytes : JSValue) : String :=
  if bytes.strictEqZero then "0 B"
  else
    let k := 1024
    let i := mathFloorLog bytes.toNumber k
    (bytes.toNumber.div (mathPow k i)).toFixed 2 ++ " " ++ sizesAt i

/-! ## Result records and the results table (`app.js`, lines 122-155) -/

/-- One element of `data.results` as parsed from the backend response.  `success` and
`winner` stand for the truthiness of the properties; a numeric property that is
absent reads `undefined`. -/
structure RawResult where
  library : String
  success : Bool
  winner : Bool
  ops_per_second : JSValue
  avg_time_per_parse : JSValue
  memory_allocated : JSValue
  allocs_per_op : JSValue
  error : Option String
deriving DecidableEq, Repr

/-- Badge of a failed entry. -/
def badgeFailed : String := "<span class=\"status-badge status-error\">Failed</span>"

/-- Badge of the winning entry. -/
def badgeWinner : String := "<span class=\"status-badge status-winner\">Winner</span>"

/-- Badge of a successful entry that is not the winner. -/
def badgeSuccess : String := "<span class=\"status-badge status-success\">Success</span>"

/-- The values interpolated into the `innerHTML` of one table row, cell by cell. -/
structure Row where
  library : String
  opsPerSec : String
  avgTime : String
  memory : String
  allocs : String
  statusBadge : String
  errorText : String
deriving DecidableEq, Repr

/-- The template literal assigned to `row.innerHTML`. -/
def Row.innerHTML (row : Row) : String :=
  "\n            <td><strong>" ++ row.library ++ "</strong></td>" ++
  "\n            <td>" ++ row.opsPerSec ++ "</td>" ++
  "\n            <td>" ++ row.avgTime ++ "</td>" ++
  "\n            <td>" ++ row.memory ++ "</td>" ++
  "\n            <td>" ++ row.allocs ++ "</td>" ++
  "\n            <td>" ++ row.statusBadge ++ row.errorText ++ "</td>" ++
  "\n        "

/-- The badge chosen at lines 130-137. -/
def statusBadge (result : RawResult) : String :=
  if !result.success then badgeFailed
  else if result.winner then badgeWinner
  else badgeSuccess

/-- The expression `result.error ? '<br><small>' + result.error + '</small>' : ''`
(an absent or empty `error` is falsy). -/
def errorText (result : RawResult) : String :=
  match result.error with
  | none => ""
  | some e => if e = "" then "" else "<br><small>" ++ e ++ "</small>"

/-- The body of the `forEach` callback of `displayTable`: the row built for one entry,
or the exception a formatter throws. -/
def displayTableRow (result : RawResult) : Except JSError Row := do
  let statusBadge := statusBadge result
  let opsPerSec ← if result.success then formatNumber result.ops_per_second else pure "-"
  let avgTime ← if result.success then formatDuration result.avg_time_per_parse else pure "-"
  let memory := if result.success then formatBytes result.memory_allocated else "-"
  let allocs ← if result.success then formatNumber result.allocs_per_op else pure "-"
  pure {
    library := result.library
    opsPerSec := opsPerSec
    avgTime := avgTime
    memory := memory
    allocs := allocs
    statusBadge := statusBadge
    errorText := errorText result }

/-- The `forEach` loop of `displayTable`: rows are appended to `tbody` one by one, and an
exception leaves the loop with the rows appended so far. -/
def displayTableLoop : List RawResult → List Row → List Row × Option JSError
  | [], tbody => (tbody, none)
  | result :: rest, tbody =>
    match displayTableRow result with
    | .error err => (tbody, some err)
    | .ok row => displayTableLoop rest (tbody ++ [row])

/-- Function `displayTable(results)`: the rows of `#resultsTableBody` afterwards, and the exception
thrown, if any. -/
def displayTable (results : List RawResult) : List Row × Option JSError :=
  displayTableLoop results []

/-! ## Charts (`app.js`, lines 1-3 and 157-270) -/

/-- The part of a Chart.js configuration that depends on the results. -/
structure ChartConfig where
  type : String
  labels : List String
  datasetLabel : String
  data : List JSValue
  backgroundColor : List String
  borderColor : List String
  borderWidth : Nat
  titleText : String
deriving DecidableEq, Repr

/-- A call into the rendering engine: `new Chart(ctx, config)` on the canvas with the given
element id, returning the instance `chart`, or `chart.destroy()`. -/
inductive EngineCall where
  | create (chart : Nat) (canvas : String) (config : ChartConfig)
  | destroy (chart : Nat)
deriving DecidableEq, Repr

/-- Effect of one engine call on the list of live chart instances. -/
def applyCall (live : List (Nat × String)) : EngineCall → List (Nat × String)
  | .create chart canvas _ => live ++ [(chart, canvas)]
  | .destroy chart => live.filter fun c => c.1 ≠ chart

/-- The chart instances created and not yet destroyed after a sequence of engine calls,
each with the canvas it draws on. -/
def liveCharts (calls : List EngineCall) : List (Nat × String) :=
  calls.foldl applyCall []

/-- The application state of lines 1-3 together with the log of engine calls. -/
structure Charts where
  opsChart : Option Nat
  timeChart : Option Nat
  engine : List EngineCall
deriving DecidableEq, Repr

/-- State at load time: `opsChart = null`, `timeChart = null`, engine untouched. -/
def Charts.initial : Charts := { opsChart := none, timeChart := none, engine := [] }

/-- The statement `if (chart) { chart.destroy(); }`. -/
def destroyIfPresent (chart : Option Nat) (engine : List EngineCall) : List EngineCall :=
  match chart with
  | some c => engine ++ [.destroy c]
  | none => engine

/-- The configuration of the operations-per-second chart. -/
def opsConfig (successfulResults : List RawResult) : ChartConfig :=
  { type := "bar"
    labels := successfulResults.map fun r => r.library
    datasetLabel := "Operations per Second"
    data := successfulResults.map fun r => r.ops_per_second
    backgroundColor := successfulResults.map fun r =>
      if r.winner then "rgba(251, 191, 36, 0.8)" else "rgba(59, 130, 246, 0.8)"
    borderColor := successfulResults.map fun r =>
      if r.winner then "rgb(251, 191, 36)" else "rgb(59, 130, 246)"
    borderWidth := 2
    titleText := "Operations per Second (Higher is Better)" }

/-- The configuration of the average-time chart; the data are converted to microseconds. -/
def timeConfig (successfulResults : List RawResult) : ChartConfig :=
  { type := "bar"
    labels := successfulResults.map fun r => r.library
    datasetLabel := "Average Time per Parse (μs)"
    data := successfulResults.map fun r =>
      .number (r.avg_time_per_parse.toNumber.div (.ofNat 1000))
    backgroundColor := successfulResults.map fun r =>
      if r.winner then "rgba(16, 185, 129, 0.8)" else "rgba(139, 92, 246, 0.8)"
    borderColor := successfulResults.map fun r =>
      if r.winner then "rgb(16, 185, 129)" else "rgb(139, 92, 246)"
    borderWidth := 2
    titleText := "Average Time per Parse (Lower is Better)" }

/-- Function `displayCharts(results)`.  A new chart instance is named by the position of its
`create` call in the engine log. -/
def displayCharts (results : List RawResult) (st : Charts) : Charts :=
  let successfulResults := results.filter fun r => r.success
  if successfulResults.length = 0 then st
  else
    let engine := destroyIfPresent st.opsChart st.engine
    let opsChart := engine.length
    let engine := engine ++ [.create opsChart "opsChart" (opsConfig successfulResults)]
    let engine := destroyIfPresent st.timeChart engine
    let timeChart := engine.length
    let engine := engine ++ [.create timeChart "timeChart" (timeConfig successfulResults)]
    { opsChart := some opsChart, timeChart := some timeChart, engine := engine }

/-! ## The page and the request orchestrator (`app.js`, lines 38-120) -/

/-- The request body sent to `/api/benchmark`. -/
structure BenchmarkRequest where
  message : String
  message_type : String
  iterations : JSNumber
  concurrency : JSNumber
  libraries : List String
deriving DecidableEq, Repr

/-- The parsed body of a successful response. -/
structure BenchmarkResponse where
  recommendation : String
  results : List RawResult
deriving DecidableEq, Repr

/-- What awaiting the request yields: the promise rejects (network failure), or the
response has a non-success status and a body whose `error` property is read, or
the response is a success carrying the results. -/
inductive FetchResult where
  | rejected (message : String)
  | errorStatus (error : Option String)
  | success (data : BenchmarkResponse)
deriving DecidableEq, Repr

/-- The document and the environment as `runBenchmark` sees them.  `iterations` and
`concurrency` hold `parseInt` of the two input values; `checkboxes` are the
inputs of `#librariesContainer` with their `checked` flags; `alerts`, `requests`
and `scrolls` log the calls of `alert`, `fetch` and `scrollIntoView`. -/
structure Page where
  httpMessage : String
  messageType : String
  iterations : JSNumber
  concurrency : JSNumber
  checkboxes : List (String × Bool)
  loadingDisplay : String
  runBenchmarkDisabled : Bool
  resultsSectionDisplay : String
  recommendation : String
  resultsTableBody : List Row
  charts : Charts
  alerts : List String
  requests : List BenchmarkRequest
  scrolls : Nat
deriving DecidableEq, Repr

/-- White space and line terminators of ECMAScript, the characters `trim` strips. -/
def isTrimmed (c : Char) : Bool :=
  c.val = 0x09 || c.val = 0x0A || c.val = 0x0B || c.val = 0x0C || c.val = 0x0D ||
  c.val = 0x20 || c.val = 0xA0 || c.val = 0x1680 ||
  (0x2000 ≤ c.val && c.val ≤ 0x200A) ||
  c.val = 0x2028 || c.val = 0x2029 || c.val = 0x202F || c.val = 0x205F ||
  c.val = 0x3000 || c.val = 0xFEFF

/-- The method `String.prototype.trim`. -/
def jsTrim (s : String) : String :=
  String.mk ((s.toList.dropWhile isTrimmed).reverse.dropWhile isTrimmed).reverse

/-- Function `showLoading(show)`: show/hide loading indicator (`visible` is the argument `show`). -/
def showLoading (visible : Bool) (p : Page) : Page :=
  { p with
    loadingDisplay := if visible then "block" else "none"
    runBenchmarkDisabled := visible }

/-- Function `hideResults()`: hide results section. -/
def hideResults (p : Page) : Page :=
  { p with resultsSectionDisplay := "none" }

/-- Function `displayResults(data)`: the page afterwards and the exception thrown, if any. -/
def displayResults (data : BenchmarkResponse) (p : Page) : Page × Option JSError :=
  let p := { p with resultsSectionDisplay := "block" }
  let p := { p with recommendation := data.recommendation }
  match displayTable data.results with
  | (tbody, some err) => ({ p with resultsTableBody := tbody }, some err)
  | (tbody, none) =>
    let p := { p with resultsTableBody := tbody }
    let p := { p with charts := displayCharts data.results p.charts }
    ({ p with scrolls := p.scrolls + 1 }, none)

/-- The call `alert(text)`. -/
def alert (text : String) (p : Page) : Page :=
  { p with alerts := p.alerts ++ [text] }

/-- The `message` of a thrown exception. -/
def JSError.message : JSError → String
  | .typeError message => message

/-- Function `runBenchmark()`, run to completion against a backend that answers the request with
`backend request`. -/
def runBenchmark (backend : BenchmarkRequest → FetchResult) (p : Page) : Page :=
  let message := jsTrim p.httpMessage
  let messageType := p.messageType
  let iterations := p.iterations
  let concurrency := p.concurrency
  let libraries := (p.checkboxes.filter fun cb => cb.2).map fun cb => cb.1
  if message = "" then alert "Please enter an HTTP message" p
  else if libraries.length = 0 then alert "Please select at least one parser library" p
  else
    let p := showLoading true p
    let p := hideResults p
    let request : BenchmarkRequest :=
      { message := message
        message_type := messageType
        iterations := iterations
        concurrency := concurrency
        libraries := libraries }
    let p := { p with requests := p.requests ++ [request] }
    let p :=
      match backend request with
      | .rejected msg => alert ("Error: " ++ msg) p
      | .errorStatus error =>
        let msg := match error with
          | some e => if e = "" then "Benchmark failed" else e
          | none => "Benchmark failed"
        alert ("Error: " ++ msg) p
      | .success data =>
        match displayResults data p with
        | (p, some err) => alert ("Error: " ++ err.message) p
        | (p, none) => p
    showLoading false p

/-! ## Sample records -/

/-- A failed entry: the scenario `{library: "libC", success: false, error: "timeout"}`. -/
def sampleFailed : RawResult :=
  { library := "libC", success := false, winner := false
    ops_per_second := .undefined, avg_time_per_parse := .undefined
    memory_allocated := .undefined, allocs_per_op := .undefined
    error := some "timeout" }

/-- A well-formed successful entry (`libA` of the end-to-end scenario). -/
def sampleSuccess : RawResult :=
  { library := "libA", success := true, winner := false
    ops_per_second := .number (.ofNat 500000), avg_time_per_parse := .number (.ofNat 2000)
    memory_allocated := .number (.ofNat 128), allocs_per_op := .number (.ofNat 2)
    error := none }

/-- A well-formed winning entry (`libB` of the end-to-end scenario). -/
def sampleWinner : RawResult :=
  { library := "libB", success := true, winner := true
    ops_per_second := .number (.ofNat 750000), avg_time_per_parse := .number (.ofNat 1333)
    memory_allocated := .number (.ofNat 96), allocs_per_op := .number (.ofNat 1)
    error := none }

/-- A successful winning entry whose `ops_per_second` is absent. -/
def sampleMissingOps : RawResult :=
  { sampleWinner with library := "libD", ops_per_second := .undefined }

/-- A successful entry whose `avg_time_per_parse` and `memory_allocated` are absent. -/
def sampleMissingTime : RawResult :=
  { sampleSuccess with
    library := "libE", avg_time_per_parse := .undefined, memory_allocated := .undefined }

/-! ## Sequences of renders -/

/-- The state after `displayCharts` has been called on each result list of `runs` in turn,
starting from the load-time state. -/
def chartsAfter (runs : List (List RawResult)) : Charts :=
  runs.foldl (fun st results => displayCharts results st) Charts.initial

/-- At most one live chart instance on every canvas. -/
def AtMostOne (live : List (Nat × String)) : Prop :=
  ∀ canvas : String, (live.filter fun c => c.2 = canvas).length ≤ 1

/-- The live instances that the stored handles name. -/
def storedCharts (st : Charts) : List (Nat × String) :=
  (st.opsChart.toList.map fun c => (c, "opsChart")) ++
    (st.timeChart.toList.map fun c => (c, "timeChart"))

/-- The invariant of the chart state: the live instances are exactly the stored handles,
which name distinct instances created earlier, and at no point of the engine log
were two instances live on one canvas. -/
structure ChartsInv (st : Charts) : Prop where
  live : liveCharts st.engine = storedCharts st
  opsBound : ∀ c, st.opsChart = some c → c < st.engine.length
  timeBound : ∀ c, st.timeChart = some c → c < st.engine.length
  distinct : ∀ a b, st.opsChart = some a → st.timeChart = some b → a ≠ b
  history : ∀ log, log <+: st.engine → AtMostOne (liveCharts log)

/-- A page with a blank message and one selected library. -/
def sampleBlankPage : Page :=
  { httpMessage := " \n\t ", messageType := "request"
    iterations := .ofNat 1000, concurrency := .ofNat 4
    checkboxes := [("libA", true), ("libB", false)]
    loadingDisplay := "none", runBenchmarkDisabled := false
    resultsSectionDisplay := "none", recommendation := "", resultsTableBody := []
    charts := Charts.initial, alerts := [], requests := [], scrolls := 0 }

/-- A page with a message and one selected library. -/
def sampleReadyPage : Page :=
  { sampleBlankPage with httpMessage := "GET / HTTP/1.1" }

/-! # Theorems -/

open JSNumber

/-! ## Numbers and digits -/

theorem lt_ofNat (a b : Nat) : (JSNumber.ofNat a).lt (.ofNat b) = decide (a < b) := by
  simp [JSNumber.lt, JSNumber.ofNat]

theorem digitChar_isDigit (d : Nat) (h : d < 10) : (Nat.digitChar d).isDigit = true := by
  interval_cases d <;> decide

theorem toDigitsCore_isDigit (fuel : Nat) : ∀ (n : Nat) (ds : List Char),
    (∀ c ∈ ds, c.isDigit = true) → ∀ c ∈ Nat.toDigitsCore 10 fuel n ds, c.isDigit = true := by
  induction fuel with
  | zero => intro n ds h; simpa [Nat.toDigitsCore] using h
  | succ fuel ih =>
    intro n ds h
    have hd : (Nat.digitChar (n % 10)).isDigit = true :=
      digitChar_isDigit _ (Nat.mod_lt _ (by decide))
    have hds : ∀ c ∈ Nat.digitChar (n % 10) :: ds, c.isDigit = true := by
      intro c hc
      rcases List.mem_cons.mp hc with rfl | hc
      · exact hd
      · exact h c hc
    rw [Nat.toDigitsCore]
    split
    · exact hds
    · exact ih _ _ hds

theorem repr_isDigit (n : Nat) : ∀ c ∈ (Nat.repr n).toList, c.isDigit = true := by
  intro c hc
  have : (Nat.repr n).toList = Nat.toDigitsCore 10 (n + 1) n [] := by
    simp [Nat.repr, Nat.toDigits, List.asString]
  rw [this] at hc
  exact toDigitsCore_isDigit _ _ _ (by simp) c hc

theorem toDigitsCore_length_le (fuel : Nat) : ∀ (n : Nat) (ds : List Char),
    ds.length ≤ (Nat.toDigitsCore 10 fuel n ds).length := by
  induction fuel with
  | zero => intro n ds; simp [Nat.toDigitsCore]
  | succ fuel ih =>
    intro n ds
    rw [Nat.toDigitsCore]
    split
    · simp
    · exact le_trans (by simp) (ih _ _)

theorem repr_length_pos (n : Nat) : 1 ≤ (Nat.repr n).toList.length := by
  have h : (Nat.repr n).toList = Nat.toDigitsCore 10 (n + 1) n [] := by
    simp [Nat.repr, Nat.toDigits, List.asString]
  rw [h, Nat.toDigitsCore]
  split
  · simp
  · exact le_trans (by simp) (toDigitsCore_length_le _ _ _)

theorem toFixed_zero_ofNat (n : Nat) (h : n < 10 ^ 21) :
    (JSNumber.ofNat n).toFixed 0 = Nat.repr n := by
  have h2 : (2 * n + 1) / 2 = n := by omega
  have h3 : ¬ ((n : Int) < 0) := by omega
  have h4 : ¬ (1000000000000000000000 ≤ n) := by omega
  simp [JSNumber.toFixed, JSNumber.ofNat, JSNumber.absNum, JSNumber.absDen, fixedDigits, h2, h3, h4]

theorem lt_zero_lt_thousand (ns : JSNumber) (h : ns.lt (.ofNat 0) = true) :
    ns.lt (.ofNat 1000) = true := by
  cases ns with
  | nan => simp [JSNumber.lt, JSNumber.ofNat] at h
  | posInf => simp [JSNumber.lt, JSNumber.ofNat] at h
  | negInf => rfl
  | fin m e =>
    simp only [JSNumber.lt, JSNumber.ofNat, decide_eq_true_eq] at h ⊢
    have hp : (0 : Int) < 2 ^ (e - min e 0).toNat := by positivity
    have hq : (0 : Int) < 2 ^ (0 - min e 0).toNat := by positivity
    have hm : m < 0 := by
      by_contra hm
      push_neg at hm
      have := mul_nonneg hm hp.le
      simp at h
      omega
    have h1 : m * 2 ^ (e - min e 0).toNat < 0 := mul_neg_of_neg_of_pos hm hp
    have h2 : (0 : Int) < ((1000 : Nat) : Int) * 2 ^ (0 - min e 0).toNat := by positivity
    omega

theorem toFixed_neg (ns : JSNumber) (f : Nat) (h : ns.lt (.ofNat 0) = true) :
    ∃ t, ns.toFixed f = "-" ++ t := by
  cases ns with
  | nan => simp [JSNumber.lt, JSNumber.ofNat] at h
  | posInf => simp [JSNumber.lt, JSNumber.ofNat] at h
  | negInf => exact ⟨"Infinity", rfl⟩
  | fin m e =>
    simp only [JSNumber.lt, JSNumber.ofNat, decide_eq_true_eq] at h
    have hp : (0 : Int) < 2 ^ (e - min e 0).toNat := by positivity
    have hm : m < 0 := by
      by_contra hm
      push_neg at hm
      have := mul_nonneg hm hp.le
      simp at h
      omega
    simp only [JSNumber.toFixed, hm, if_true]
    split
    · exact ⟨_, rfl⟩
    · exact ⟨_, rfl⟩

/-! ## Rounding to binary64 -/

theorem bitLengthAux_le : ∀ fuel n L, n < 2 ^ L → bitLengthAux fuel n ≤ L := by
  intro fuel
  induction fuel with
  | zero => intro n L _; simp [bitLengthAux]
  | succ fuel ih =>
    intro n L h
    rw [bitLengthAux]
    split
    · omega
    · rename_i hn
      cases L with
      | zero => simp at h; omega
      | succ L =>
        have : n / 2 < 2 ^ L := by
          rw [pow_succ] at h
          omega
        have := ih (n / 2) L this
        omega

theorem bitLength_le (n L : Nat) (h : n < 2 ^ L) : bitLength n ≤ L :=
  bitLengthAux_le n n L h

theorem bitLengthAux_spec : ∀ fuel n, n ≤ fuel → 1 ≤ n →
    1 ≤ bitLengthAux fuel n ∧ 2 ^ (bitLengthAux fuel n - 1) ≤ n ∧ n < 2 ^ bitLengthAux fuel n := by
  intro fuel
  induction fuel with
  | zero => intro n h1 h2; omega
  | succ fuel ih =>
    intro n h1 h2
    rw [bitLengthAux]
    have hn : ¬ n = 0 := by omega
    simp only [hn, if_false]
    by_cases h : n / 2 = 0
    · have hn1 : n = 1 := by omega
      subst hn1
      cases fuel <;> simp [bitLengthAux]
    · obtain ⟨a, b, c⟩ := ih (n / 2) (by omega) (by omega)
      refine ⟨by omega, ?_, ?_⟩
      · have e : bitLengthAux fuel (n / 2) + 1 - 1 = (bitLengthAux fuel (n / 2) - 1) + 1 := by
          omega
        rw [e, pow_succ]
        omega
      · rw [pow_succ]
        omega

theorem bitLength_spec (n : Nat) (h : 1 ≤ n) :
    1 ≤ bitLength n ∧ 2 ^ (bitLength n - 1) ≤ n ∧ n < 2 ^ bitLength n :=
  bitLengthAux_spec n n le_rfl h

theorem bitLength_two_pow_52 : bitLength (2 ^ 52) = 53 := by decide

theorem floorLog2_lower (N D : Nat) (hD : 1 ≤ D) (hND : D ≤ N) :
    ∃ E : Nat, floorLog2 N D = (E : Int) ∧ D * 2 ^ E ≤ N := by
  obtain ⟨n1, n2, n3⟩ := bitLength_spec N (by omega)
  obtain ⟨d1, d2, d3⟩ := bitLength_spec D hD
  have hle : bitLength D ≤ bitLength N := by
    by_contra hcon
    push_neg at hcon
    have : 2 ^ bitLength N ≤ 2 ^ (bitLength D - 1) :=
      Nat.pow_le_pow_right (by decide) (by omega)
    omega
  unfold floorLog2
  have e1 : (((bitLength N : Int) - (bitLength D : Int))).toNat = bitLength N - bitLength D := by
    omega
  have e2 : (-((bitLength N : Int) - (bitLength D : Int))).toNat = 0 := by omega
  simp only [e1, e2, pow_zero, mul_one]
  split
  · rename_i hc
    exact ⟨bitLength N - bitLength D, by omega, hc⟩
  · rename_i hc
    have hpos : bitLength D < bitLength N := by
      by_contra hcon
      have : bitLength N - bitLength D = 0 := by omega
      rw [this] at hc
      simp at hc
      omega
    refine ⟨bitLength N - bitLength D - 1, by omega, ?_⟩
    have h1 : D * 2 ^ (bitLength N - bitLength D - 1) <
        2 ^ bitLength D * 2 ^ (bitLength N - bitLength D - 1) :=
      Nat.mul_lt_mul_of_pos_right d3 (by positivity)
    have h2 : 2 ^ bitLength D * 2 ^ (bitLength N - bitLength D - 1) = 2 ^ (bitLength N - 1) := by
      rw [← pow_add]; congr 1; omega
    omega

theorem floorLog2_le (b a : Nat) (hb2 : b < 2 ^ 53) :
    floorLog2 (b * 2 ^ a) (2 ^ 52) ≤ a := by
  have h1 : bitLength (b * 2 ^ a) ≤ 53 + a := by
    apply bitLength_le
    rw [pow_add]
    exact Nat.mul_lt_mul_of_pos_right hb2 (by positivity)
  unfold floorLog2
  simp only [bitLength_two_pow_52]
  split <;> omega

theorem roundToDouble_bound (N D : Nat) (hD : 1 ≤ D) (hND : D ≤ N) (hC : N < 2 ^ 67 * D) :
    ∃ m e, roundToDouble false N D = fin m e ∧ 0 ≤ m ∧ absNum m e < 2 ^ 68 * absDen e := by
  obtain ⟨E, hE, hElo⟩ := floorLog2_lower N D hD hND
  have hE67 : E < 67 := by
    by_contra hcon
    have h1 : 2 ^ 67 ≤ 2 ^ E := Nat.pow_le_pow_right (by decide) (by omega)
    have h2 : D * 2 ^ 67 ≤ D * 2 ^ E := Nat.mul_le_mul_left _ h1
    have h3 : D * 2 ^ 67 = 2 ^ 67 * D := Nat.mul_comm _ _
    omega
  have hN : ¬ N = 0 := by omega
  unfold roundToDouble
  simp only [hN, if_false, hE]
  have hq : max ((E : Int) - 52) (-1074) = (E : Int) - 52 := by omega
  rw [hq]
  by_cases h52 : 52 ≤ E
  · -- the quantum is `2 ^ j` with `j = E - 52`
    obtain ⟨j, rfl⟩ : ∃ j, E = 52 + j := ⟨E - 52, by omega⟩
    have e1 : ((((52 + j : Nat) : Int)) - 52).toNat = j := by omega
    have e2 : (-((((52 + j : Nat) : Int)) - 52)).toNat = 0 := by omega
    simp only [e1, e2, pow_zero, mul_one]
    have hB : 0 < D * 2 ^ j := by positivity
    have ht : N / (D * 2 ^ j) * 2 ^ j < 2 ^ 67 := by
      have h1 : N / (D * 2 ^ j) * (D * 2 ^ j) ≤ N := Nat.div_mul_le_self _ _
      have h2 : N / (D * 2 ^ j) * 2 ^ j * D < 2 ^ 67 * D := by
        calc N / (D * 2 ^ j) * 2 ^ j * D = N / (D * 2 ^ j) * (D * 2 ^ j) := by ring
          _ ≤ N := h1
          _ < 2 ^ 67 * D := hC
      exact Nat.lt_of_mul_lt_mul_right h2
    have hj : 2 ^ j ≤ 2 ^ 14 := Nat.pow_le_pow_right (by decide) (by omega)
    generalize N / (D * 2 ^ j) = t at ht
    generalize N % (D * 2 ^ j) = r
    have hmant : (if 2 * r < D * 2 ^ j then t else if D * 2 ^ j < 2 * r then t + 1
        else if t % 2 = 0 then t else t + 1) ≤ t + 1 := by
      split_ifs <;> omega
    generalize (if 2 * r < D * 2 ^ j then t else if D * 2 ^ j < 2 * r then t + 1
        else if t % 2 = 0 then t else t + 1) = mant at hmant
    have hval : mant * 2 ^ j < 2 ^ 68 := by
      have : mant * 2 ^ j ≤ (t + 1) * 2 ^ j := Nat.mul_le_mul_right _ hmant
      have : (t + 1) * 2 ^ j = t * 2 ^ j + 2 ^ j := by ring
      norm_num at hj ht ⊢
      omega
    by_cases h53 : mant = 2 ^ 53
    · simp only [h53, if_true]
      have hne : ¬ ((2 : Nat) ^ 52 = 0) := by positivity
      have h971 : ¬ ((971 : Int) < ((52 + j : Nat) : Int) - 52 + 1) := by omega
      simp only [hne, if_false, h971, Bool.false_eq_true]
      refine ⟨_, _, rfl, by positivity, ?_⟩
      have e3 : ((((52 + j : Nat) : Int)) - 52 + 1).toNat = j + 1 := by omega
      have e4 : (-((((52 + j : Nat) : Int)) - 52 + 1)).toNat = 0 := by omega
      simp only [absNum, absDen, e3, e4, pow_zero, mul_one]
      rw [h53] at hval
      have e5 : (((2 ^ 52 : Nat) : Int)).natAbs = 2 ^ 52 := by norm_num
      rw [e5, pow_succ]
      omega
    · simp only [h53, if_false]
      by_cases h0 : mant = 0
      · simp only [h0, if_true]
        exact ⟨0, 0, rfl, le_rfl, by simp [absNum, absDen]⟩
      · have h971 : ¬ ((971 : Int) < ((52 + j : Nat) : Int) - 52) := by omega
        simp only [h0, if_false, h971, Bool.false_eq_true]
        refine ⟨_, _, rfl, by positivity, ?_⟩
        simp only [absNum, absDen, e1, e2, pow_zero, mul_one, Int.natAbs_ofNat]
        exact hval
  · -- the quantum is `2 ^ (-j)` with `j = 52 - E`
    obtain ⟨j, hj1, hj⟩ : ∃ j : Nat, 1 ≤ j ∧ (E : Int) - 52 = -(j : Int) :=
      ⟨52 - E, by omega, by omega⟩
    rw [hj]
    have e1 : (-(j : Int)).toNat = 0 := by omega
    have e2 : (-(-(j : Int))).toNat = j := by omega
    simp only [e1, e2, pow_zero, mul_one]
    have ht : N * 2 ^ j / D < 2 ^ 67 * 2 ^ j := by
      have h1 : N * 2 ^ j / D * D ≤ N * 2 ^ j := Nat.div_mul_le_self _ _
      have h2 : N * 2 ^ j < 2 ^ 67 * D * 2 ^ j := Nat.mul_lt_mul_of_pos_right hC (by positivity)
      have h3 : N * 2 ^ j / D * D < 2 ^ 67 * 2 ^ j * D := by
        calc N * 2 ^ j / D * D ≤ N * 2 ^ j := h1
          _ < 2 ^ 67 * D * 2 ^ j := h2
          _ = 2 ^ 67 * 2 ^ j * D := by ring
      exact Nat.lt_of_mul_lt_mul_right h3
    generalize N * 2 ^ j / D = t at ht
    generalize N * 2 ^ j % D = r
    have hmant : (if 2 * r < D then t else if D < 2 * r then t + 1
        else if t % 2 = 0 then t else t + 1) ≤ t + 1 := by
      split_ifs <;> omega
    generalize (if 2 * r < D then t else if D < 2 * r then t + 1
        else if t % 2 = 0 then t else t + 1) = mant at hmant
    have hpos : 0 < 2 ^ j := by positivity
    have hval : mant < 2 ^ 68 * 2 ^ j := by
      have : 2 ^ 68 * 2 ^ j = 2 ^ 67 * 2 ^ j + 2 ^ 67 * 2 ^ j := by ring
      have : 0 < 2 ^ 67 * 2 ^ j := by positivity
      omega
    by_cases h53 : mant = 2 ^ 53
    · simp only [h53, if_true]
      have hne : ¬ ((2 : Nat) ^ 52 = 0) := by positivity
      have h971 : ¬ ((971 : Int) < -(j : Int) + 1) := by omega
      simp only [hne, if_false, h971, Bool.false_eq_true]
      refine ⟨_, _, rfl, by positivity, ?_⟩
      have e3 : (-(j : Int) + 1).toNat = 0 := by omega
      have e4 : (-(-(j : Int) + 1)).toNat = j - 1 := by omega
      have e5 : (((2 ^ 52 : Nat) : Int)).natAbs = 2 ^ 52 := by norm_num
      simp only [absNum, absDen, e3, e4, pow_zero, mul_one, e5]
      have : 0 < 2 ^ (j - 1) := by positivity
      have : 2 ^ 68 * 2 ^ (j - 1) ≥ 2 ^ 68 * 1 := Nat.mul_le_mul_left _ this
      norm_num at this ⊢
      omega
    · simp only [h53, if_false]
      by_cases h0 : mant = 0
      · simp only [h0, if_true]
        exact ⟨0, 0, rfl, le_rfl, by simp [absNum, absDen]⟩
      · have h971 : ¬ ((971 : Int) < -(j : Int)) := by omega
        simp only [h0, if_false, h971, Bool.false_eq_true]
        refine ⟨_, _, rfl, by positivity, ?_⟩
        simp only [absNum, absDen, e1, e2, pow_zero, mul_one, Int.natAbs_ofNat]
        exact hval

theorem roundToDouble_pow_two (b a : Nat) (hb : 0 < b) (hb2 : b < 2 ^ 53) (ha : a ≤ 52) :
    ∃ m e, roundToDouble false (b * 2 ^ a) (2 ^ 52) = fin m e ∧ 0 ≤ m ∧
      absNum m e * 2 ^ 52 = (b * 2 ^ a) * absDen e := by
  have hN : b * 2 ^ a ≠ 0 := by positivity
  have hfl := floorLog2_le b a hb2
  unfold roundToDouble
  simp only [hN, if_false]
  generalize floorLog2 (b * 2 ^ a) (2 ^ 52) = E at hfl
  obtain ⟨k, hk⟩ : ∃ k : Nat, max (E - 52) (-1074) = -(k : Int) ∧ 52 ≤ a + k := by
    refine ⟨(-(max (E - 52) (-1074))).toNat, ?_, ?_⟩ <;> omega
  obtain ⟨hq, hk52⟩ := hk
  rw [hq]
  have e1 : (-(-(k : Int))).toNat = k := by omega
  have e2 : (-(k : Int)).toNat = 0 := by omega
  simp only [e1, e2, pow_zero, mul_one]
  have hA : b * 2 ^ a * 2 ^ k = (b * 2 ^ (a + k - 52)) * 2 ^ 52 := by
    rw [mul_assoc, mul_assoc, ← pow_add, ← pow_add]
    congr 2
    omega
  have hdiv : b * 2 ^ a * 2 ^ k / 2 ^ 52 = b * 2 ^ (a + k - 52) := by
    rw [hA]; exact Nat.mul_div_cancel _ (by positivity)
  have hmod : b * 2 ^ a * 2 ^ k % 2 ^ 52 = 0 := by
    rw [hA]; exact Nat.mul_mod_left _ _
  rw [hdiv, hmod]
  have ht : 0 < b * 2 ^ (a + k - 52) := by positivity
  generalize b * 2 ^ (a + k - 52) = t at hA ht
  simp only [mul_zero, show (0 : Nat) < 2 ^ 52 by positivity, if_true]
  by_cases h53 : t = 2 ^ 53
  · simp only [h53, if_true]
    refine ⟨2 ^ 52, -(k : Int) + 1, ?_, by positivity, ?_⟩
    · have : ¬ ((2 : Nat) ^ 52 = 0) := by positivity
      have h971 : ¬ ((971 : Int) < -(k : Int) + 1) := by omega
      simp [h971]
    · subst h53
      unfold absNum absDen
      rcases Nat.eq_zero_or_pos k with hk0 | hk0
      · subst hk0
        simp at hA ⊢
        omega
      · have e3 : (-(k : Int) + 1).toNat = 0 := by omega
        have e4 : (-(-(k : Int) + 1)).toNat = k - 1 := by omega
        rw [e3, e4]
        have hk2 : 2 ^ k = 2 ^ (k - 1) * 2 := by
          rw [← pow_succ]; congr 1; omega
        have hA2 : b * 2 ^ a * 2 ^ (k - 1) * 2 = 2 ^ 53 * 2 ^ 52 := by
          rw [mul_assoc (b * 2 ^ a), ← hk2]; exact hA
        generalize b * 2 ^ a * 2 ^ (k - 1) = X at hA2
        simp
        omega
  · simp only [h53, if_false]
    refine ⟨t, -(k : Int), ?_, by positivity, ?_⟩
    · have : ¬ (t = 0) := by omega
      have h971 : ¬ ((971 : Int) < -(k : Int)) := by omega
      simp [this, h971]
    · unfold absNum absDen
      rw [e1, e2]
      simp
      omega

theorem absDen_pos (e : Int) : 0 < absDen e := by
  unfold absDen; positivity

theorem round_div_congr (N' D' N D F : Nat) (hD' : 0 < D') (hD : 0 < D)
    (hval : N' * D = N * D') :
    (2 * N' * F + D') / (2 * D') = (2 * N * F + D) / (2 * D) := by
  have h1 : (2 * N' * F + D') / (2 * D') = ((2 * N' * F + D') * D) / ((2 * D') * D) :=
    (Nat.mul_div_mul_right _ _ hD).symm
  have h2 : (2 * N * F + D) / (2 * D) = (D' * (2 * N * F + D)) / (D' * (2 * D)) :=
    (Nat.mul_div_mul_left _ _ hD').symm
  rw [h1, h2]
  congr 1
  · have : (2 * N' * F + D') * D = 2 * (N' * D) * F + D' * D := by ring
    rw [this, hval]; ring
  · ring

theorem toFixed_of_value (m e : Int) (N D f : Nat) (hm : 0 ≤ m) (hD : 0 < D)
    (hval : absNum m e * D = N * absDen e) (hsmall : N < 10 ^ 21 * D) :
    (JSNumber.fin m e).toFixed f = fixedDigits ((2 * N * 10 ^ f + D) / (2 * D)) f := by
  have hD' := absDen_pos e
  have hm' : ¬ m < 0 := by omega
  have hbig : ¬ (10 ^ 21 * absDen e ≤ absNum m e) := by
    intro hle
    have h1 : 10 ^ 21 * absDen e * D ≤ absNum m e * D := Nat.mul_le_mul_right _ hle
    rw [hval] at h1
    have h2 : N * absDen e < 10 ^ 21 * D * absDen e := Nat.mul_lt_mul_of_pos_right hsmall hD'
    have h3 : 10 ^ 21 * absDen e * D = 10 ^ 21 * D * absDen e := by ring
    omega
  unfold JSNumber.toFixed
  simp only [hm', if_false, hbig]
  rw [round_div_congr (absNum m e) (absDen e) N D (10 ^ f) hD' hD hval]
  simp

theorem div_ofNat_pow_two (b a : Nat) (ha : a ≤ 52) :
    (JSNumber.ofNat b).div (.fin (2 ^ 52) (-(a : Int))) =
      roundToDouble false (b * 2 ^ a) (2 ^ 52) := by
  have e1 : (-(a : Int)).toNat = 0 := by omega
  have e2 : (-(-(a : Int))).toNat = a := by omega
  have e3 : ¬ ((b : Int) < 0) := by omega
  simp [JSNumber.div, JSNumber.ofNat, absNum, absDen, e1, e2, e3]

theorem toFixed_div_pow_two (b a P : Nat) (hb : 0 < b) (hb2 : b < 2 ^ 53) (ha : a ≤ 52)
    (hP : 2 ^ a * P = 2 ^ 52) :
    ((JSNumber.ofNat b).div (.fin (2 ^ 52) (-(a : Int)))).toFixed 2 =
      fixedDigits ((2 * b * 10 ^ 2 + P) / (2 * P)) 2 := by
  rw [div_ofNat_pow_two b a ha]
  obtain ⟨m, e, hr, hm, hval⟩ := roundToDouble_pow_two b a hb hb2 ha
  have hP0 : 0 < P := by
    rcases Nat.eq_zero_or_pos P with h | h
    · subst h; simp at hP
    · exact h
  rw [hr, toFixed_of_value m e (b * 2 ^ a) (2 ^ 52) 2 hm (by positivity) hval]
  · rw [round_div_congr (b * 2 ^ a) (2 ^ 52) b P (10 ^ 2) (by positivity) hP0]
    rw [← hP]; ring
  · have h1 : b * 2 ^ a < 2 ^ 53 * 2 ^ 52 := by
      calc b * 2 ^ a < 2 ^ 53 * 2 ^ a := Nat.mul_lt_mul_of_pos_right hb2 (by positivity)
        _ ≤ 2 ^ 53 * 2 ^ 52 := Nat.mul_le_mul_left _ (Nat.pow_le_pow_right (by decide) ha)
    have h2 : 2 ^ 53 * 2 ^ 52 ≤ 10 ^ 21 * 2 ^ 52 := Nat.mul_le_mul_right _ (by norm_num)
    omega

/-! ## Two decimals -/

theorem hasTwoDecimals_mk (a b : List Char) (ha : a ≠ []) (hda : ∀ c ∈ a, c.isDigit = true)
    (hb : b.length = 2) (hdb : ∀ c ∈ b, c.isDigit = true) :
    hasTwoDecimals (String.mk a ++ "." ++ String.mk b) = true := by
  have hl : (String.mk a ++ "." ++ String.mk b).toList = a ++ '.' :: b := by
    simp [String.toList, String.data_append]
  match b, hb, hdb with
  | [x, y], _, hdb =>
    have hx := hdb x (by simp)
    have hy := hdb y (by simp)
    unfold hasTwoDecimals
    rw [hl]
    have hlen : (a ++ ['.', x, y]).length - 3 = a.length := by simp
    rw [hlen, List.take_left, List.drop_left]
    have hne : a.isEmpty = false := by
      cases a with
      | nil => exact absurd rfl ha
      | cons _ _ => rfl
    have hall : a.all Char.isDigit = true := by
      rw [List.all_eq_true]; exact hda
    simp [hne, hall, hx, hy]

theorem fixedDigits_two_decimals (n : Nat) : hasTwoDecimals (fixedDigits n 2) = true := by
  unfold fixedDigits
  simp only [show ¬ (2 = 0) by decide, if_false]
  have hpos := repr_length_pos n
  have hdig := repr_isDigit n
  generalize (Nat.repr n).toList = m at hpos hdig
  have key : ∀ p : List Char, 3 ≤ p.length → (∀ c ∈ p, c.isDigit = true) →
      hasTwoDecimals (String.mk (p.take (p.length - 2)) ++ "." ++
        String.mk (p.drop (p.length - 2))) = true := by
    intro p hp hd
    apply hasTwoDecimals_mk
    · intro hnil
      have := congrArg List.length hnil
      simp at this
      omega
    · intro c hc; exact hd c (List.mem_of_mem_take hc)
    · simp; omega
    · intro c hc; exact hd c (List.mem_of_mem_drop hc)
  split
  · rename_i hle
    apply key
    · simp; omega
    · intro c hc
      rcases List.mem_append.mp hc with h | h
      · rw [List.eq_of_mem_replicate h]; decide
      · exact hdig c h
  · rename_i hgt
    exact key m (by omega) hdig

theorem toFixed_two_decimals (m e : Int) (hm : 0 ≤ m) (h : absNum m e < 10 ^ 21 * absDen e) :
    hasTwoDecimals ((JSNumber.fin m e).toFixed 2) = true := by
  have hm' : ¬ m < 0 := by omega
  have hbig : ¬ (10 ^ 21 * absDen e ≤ absNum m e) := by omega
  unfold JSNumber.toFixed
  simp only [hm', if_false, hbig]
  have : "" ++ fixedDigits ((2 * absNum m e * 10 ^ 2 + absDen e) / (2 * absDen e)) 2 =
      fixedDigits ((2 * absNum m e * 10 ^ 2 + absDen e) / (2 * absDen e)) 2 := by simp
  rw [this]
  exact fixedDigits_two_decimals _

theorem div_ofNat_two_decimals (ns c : Nat) (hc : 1 ≤ c) (h1 : c ≤ ns) (h2 : ns < 2 ^ 67 * c) :
    hasTwoDecimals (((JSNumber.ofNat ns).div (.ofNat c)).toFixed 2) = true := by
  have hdiv : (JSNumber.ofNat ns).div (.ofNat c) = roundToDouble false ns c := by
    have e1 : ¬ ((c : Int) = 0) := by omega
    have e2 : ¬ ((ns : Int) < 0) := by omega
    have e3 : ¬ ((c : Int) < 0) := by omega
    simp [JSNumber.div, JSNumber.ofNat, absNum, absDen, e1, e2, e3]
  obtain ⟨m, e, hr, hm, hb⟩ := roundToDouble_bound ns c hc h1 h2
  rw [hdiv, hr]
  apply toFixed_two_decimals m e hm
  have : 2 ^ 68 * absDen e ≤ 10 ^ 21 * absDen e := Nat.mul_le_mul_right _ (by norm_num)
  omega

/-! ## The formatter `formatDuration` -/

/-- C1 (as amended): for a non-negative integer `ns`, `formatDuration` picks the unit by tier,
lower bound inclusive: below 1000 the whole number and `" ns"`; from 1000 to below
1,000,000 `(ns / 1000).toFixed(2)` and `" μs"`; from 1,000,000 to below 1,000,000,000
`(ns / 1000000).toFixed(2)` and `" ms"`; from there on `(ns / 1000000000).toFixed(2)`
and `" s"`.  The text of `toFixed(2)` has two decimals in the second and third tier,
and in the fourth for every `ns` up to `10 ^ 29`.  The four boundary examples follow. -/
theorem formatDuration_tiers (ns : Nat) :
    (ns < 1000 → formatDuration (.number (.ofNat ns)) = .ok (Nat.repr ns ++ " ns")) ∧
    (1000 ≤ ns → ns < 1000000 →
      formatDuration (.number (.ofNat ns)) =
        .ok (((JSNumber.ofNat ns).div (.ofNat 1000)).toFixed 2 ++ " μs") ∧
      hasTwoDecimals (((JSNumber.ofNat ns).div (.ofNat 1000)).toFixed 2) = true) ∧
    (1000000 ≤ ns → ns < 1000000000 →
      formatDuration (.number (.ofNat ns)) =
        .ok (((JSNumber.ofNat ns).div (.ofNat 1000000)).toFixed 2 ++ " ms") ∧
      hasTwoDecimals (((JSNumber.ofNat ns).div (.ofNat 1000000)).toFixed 2) = true) ∧
    (1000000000 ≤ ns →
      formatDuration (.number (.ofNat ns)) =
        .ok (((JSNumber.ofNat ns).div (.ofNat 1000000000)).toFixed 2 ++ " s") ∧
      (ns ≤ 10 ^ 29 →
        hasTwoDecimals (((JSNumber.ofNat ns).div (.ofNat 1000000000)).toFixed 2) = true)) ∧
    formatDuration (.number (.ofNat 999)) = .ok "999 ns" ∧
    formatDuration (.number (.ofNat 1000)) = .ok "1.00 μs" ∧
    formatDuration (.number (.ofNat 1000000)) = .ok "1.00 ms" ∧
    formatDuration (.number (.ofNat 1000000000)) = .ok "1.00 s" := by
  refine ⟨?_, ?_, ?_, ?_, by rfl, by rfl, by rfl, by rfl⟩
  · intro h
    have h' : ns < 10 ^ 21 := by omega
    simp [formatDuration, JSValue.toNumber, lt_ofNat, h, JSValue.toFixed, toFixed_zero_ofNat ns h']
  · intro h1 h2
    have h1' : ¬ ns < 1000 := by omega
    refine ⟨?_, div_ofNat_two_decimals ns 1000 (by decide) h1 (by omega)⟩
    simp [formatDuration, JSValue.toNumber, lt_ofNat, h1', h2]
    rfl
  · intro h1 h2
    have h1' : ¬ ns < 1000 := by omega
    have h1'' : ¬ ns < 1000000 := by omega
    refine ⟨?_, div_ofNat_two_decimals ns 1000000 (by decide) h1 (by omega)⟩
    simp [formatDuration, JSValue.toNumber, lt_ofNat, h1', h1'', h2]
    rfl
  · intro h1
    have h1' : ¬ ns < 1000 := by omega
    have h1'' : ¬ ns < 1000000 := by omega
    have h1''' : ¬ ns < 1000000000 := by omega
    refine ⟨?_, fun hb => div_ofNat_two_decimals ns 1000000000 (by decide) h1 (by omega)⟩
    simp [formatDuration, JSValue.toNumber, lt_ofNat, h1', h1'', h1''']
    rfl

theorem formatDuration_tiers_witness :
    formatDuration (.number (.ofNat 1536)) = .ok "1.54 μs" ∧
    formatDuration (.number (.ofNat 999999)) = .ok "1000.00 μs" ∧
    formatDuration (.number (.ofNat 2500000000)) = .ok "2.50 s" :=
  ⟨((formatDuration_tiers 1536).2.1 (by decide) (by decide)).1,
   ((formatDuration_tiers 999999).2.1 (by decide) (by decide)).1,
   ((formatDuration_tiers 2500000000).2.2.2.1 (by decide)).1⟩

set_option maxRecDepth 4000 in
theorem div_sample_large :
    (JSNumber.ofNat 1342177280000000000000000000000).div (.ofNat 1000000000) =
      .fin 5120000000000000 18 := by
  decide

set_option maxRecDepth 4000 in
theorem toStringLarge_sample :
    toStringLarge (5120000000000000 * 2 ^ 18) 1 = "1.34217728e+21" := by
  have hd : (Nat.repr (5120000000000000 * 2 ^ 18 / 1)).length = 22 := by decide
  have hr : roundToDouble false (5120000000000000 * 2 ^ 18) 1 = .fin 5120000000000000 18 := by
    decide
  have hs : shortestDecimal (.fin 5120000000000000 18) (5120000000000000 * 2 ^ 18) 1 22 17 1 =
      (9, 134217728, 22) := by decide
  unfold toStringLarge
  simp only [hd, hr, hs]
  decide

theorem toFixed_sample_large :
    (JSNumber.fin 5120000000000000 18).toFixed 2 = "1.34217728e+21" := by
  have h : (JSNumber.fin 5120000000000000 18).toFixed 2 =
      "" ++ toStringLarge (5120000000000000 * 2 ^ 18) 1 := by
    simp [JSNumber.toFixed, absNum, absDen]
  rw [h, toStringLarge_sample]
  rfl

set_option maxRecDepth 4000 in
theorem formatDuration_sample_large :
    formatDuration (.number (.ofNat 1342177280000000000000000000000)) =
      .ok "1.34217728e+21 s" := by
  have h1 : (JSNumber.ofNat 1342177280000000000000000000000).lt (.ofNat 1000) = false := by
    decide
  have h2 : (JSNumber.ofNat 1342177280000000000000000000000).lt (.ofNat 1000000) = false := by
    decide
  have h3 : (JSNumber.ofNat 1342177280000000000000000000000).lt (.ofNat 1000000000) = false := by
    decide
  simp only [formatDuration, JSValue.toNumber, h1, h2, h3, div_sample_large,
    toFixed_sample_large]
  rfl

theorem formatDuration_tiers_counterexample :
    formatDuration (.number (.ofNat 1342177280000000000000000000000)) =
      .ok "1.34217728e+21 s" ∧
    ¬ ∃ text, hasTwoDecimals text = true ∧
      formatDuration (.number (.ofNat 1342177280000000000000000000000)) =
        .ok (text ++ " s") := by
  refine ⟨formatDuration_sample_large, ?_⟩
  rintro ⟨text, htwo, heq⟩
  rw [formatDuration_sample_large] at heq
  have hs : text ++ " s" = "1.34217728e+21" ++ " s" := by
    injection heq with h
    exact h.symm
  have hd : text.data = "1.34217728e+21".data := by
    have := congrArg String.data hs
    simp only [String.data_append] at this
    exact List.append_cancel_right this
  have ht : text = "1.34217728e+21" := String.ext hd
  rw [ht] at htwo
  exact absurd htwo (by decide)

/-- The quotient is rounded to binary64 before it is rendered: `1005 / 1000` is the double
just below `1.005`, so it reads `1.00`, not `1.01`. -/
theorem formatDuration_binary_rounding :
    formatDuration (.number (.ofNat 1005)) = .ok "1.00 μs" := by
  rfl

/-- C10 (as amended): for a negative `ns`, `formatDuration` signals no error; it returns
`ns.toFixed(0)`, which starts with the minus sign, followed by `" ns"`. -/
theorem formatDuration_negative (ns : JSNumber) (h : ns.lt (.ofNat 0) = true) :
    formatDuration (.number ns) = .ok (ns.toFixed 0 ++ " ns") ∧
    ∃ t, ns.toFixed 0 = "-" ++ t := by
  refine ⟨?_, toFixed_neg ns 0 h⟩
  simp [formatDuration, JSValue.toNumber, lt_zero_lt_thousand ns h, JSValue.toFixed]

theorem formatDuration_negative_witness :
    (JSNumber.fin (-5) 0).lt (.ofNat 0) = true ∧
    formatDuration (.number (.fin (-5) 0)) = .ok ((JSNumber.fin (-5) 0).toFixed 0 ++ " ns") :=
  ⟨by decide, (formatDuration_negative (.fin (-5) 0) (by decide)).1⟩

theorem formatDuration_negative_counterexample :
    formatDuration (.number (.fin (-5) 0)) = .ok "-5 ns" ∧
    ¬ ∃ err, formatDuration (.number (.fin (-5) 0)) = .error err := by
  have h : formatDuration (.number (.fin (-5) 0)) = .ok "-5 ns" := by rfl
  refine ⟨h, ?_⟩
  rintro ⟨err, he⟩
  rw [h] at he
  cases he

/-! ## The formatter `formatNumber` -/

theorem groupRev_filter (l : List Char) : ∀ cnt,
    (groupRev l cnt).filter (fun c => c ≠ ',') = l.filter (fun c => c ≠ ',') := by
  induction l with
  | nil => intro cnt; rfl
  | cons c rest ih =>
    intro cnt
    rw [groupRev]
    split
    · simp only [List.filter_cons, ih]
      simp
    · simp only [List.filter_cons, ih]

theorem groupRev_mem (l : List Char) : ∀ cnt, ∀ c ∈ groupRev l cnt, c ∈ l ∨ c = ',' := by
  induction l with
  | nil => intro cnt c hc; simp [groupRev] at hc
  | cons a rest ih =>
    intro cnt c hc
    rw [groupRev] at hc
    split at hc
    · rcases List.mem_cons.mp hc with h | hc
      · exact Or.inr h
      · rcases List.mem_cons.mp hc with h | hc
        · exact Or.inl (h ▸ List.mem_cons_self _ _)
        · rcases ih _ c hc with h | h
          · exact Or.inl (List.mem_cons_of_mem _ h)
          · exact Or.inr h
    · rcases List.mem_cons.mp hc with h | hc
      · exact Or.inl (h ▸ List.mem_cons_self _ _)
      · rcases ih _ c hc with h | h
        · exact Or.inl (List.mem_cons_of_mem _ h)
        · exact Or.inr h

theorem filter_comma_of_isDigit (l : List Char) (h : ∀ c ∈ l, c.isDigit = true) :
    l.filter (fun c => c ≠ ',') = l := by
  rw [List.filter_eq_self]
  intro c hc
  have := h c hc
  simp only [ne_eq, decide_not, Bool.not_eq_true', decide_eq_false_iff_not]
  rintro rfl
  exact absurd this (by decide)

theorem groupThousands_filter (l : List Char) (h : ∀ c ∈ l, c.isDigit = true) :
    (groupThousands l).filter (fun c => c ≠ ',') = l := by
  unfold groupThousands
  rw [List.filter_reverse, groupRev_filter, ← List.filter_reverse, List.reverse_reverse]
  exact filter_comma_of_isDigit l h

theorem groupThousands_mem (l : List Char) : ∀ c ∈ groupThousands l, c ∈ l ∨ c = ',' := by
  intro c hc
  unfold groupThousands at hc
  rcases groupRev_mem _ _ c (List.mem_reverse.mp hc) with h | h
  · exact Or.inl (List.mem_reverse.mp h)
  · exact Or.inr h

theorem toLocaleString_ofNat (n : Nat) (h : n < 2 ^ 53) :
    (JSNumber.ofNat n).toLocaleString = String.mk (groupThousands (Nat.repr n).toList) := by
  have h2 : (2 * n + 1) / 2 = n := by omega
  have h3 : ¬ ((n : Int) < 0) := by omega
  have h4 : n < 9007199254740992 := by omega
  simp [JSNumber.toLocaleString, JSNumber.ofNat, JSNumber.absNum, JSNumber.absDen, h2, h3, h4]

/-- C3 (as amended): for a non-negative integer `n` below `2 ^ 53`, `formatNumber(n)` consists
of digits and grouping commas only (no fractional part), and without the commas it is
the decimal numeral of `n`. -/
theorem formatNumber_digits (n : Nat) (h : n < 2 ^ 53) :
    ∃ s, formatNumber (.number (.ofNat n)) = .ok s ∧
      (∀ c ∈ s.toList, c.isDigit = true ∨ c = ',') ∧
      s.toList.filter (fun c => c ≠ ',') = (Nat.repr n).toList := by
  refine ⟨String.mk (groupThousands (Nat.repr n).toList), ?_, ?_, ?_⟩
  · simp [formatNumber, JSValue.toLocaleString, toLocaleString_ofNat n h]
  · intro c hc
    rcases groupThousands_mem _ c hc with h | h
    · exact Or.inl (repr_isDigit n c h)
    · exact Or.inr h
  · exact groupThousands_filter _ (repr_isDigit n)

theorem formatNumber_digits_witness :
    ∃ s, formatNumber (.number (.ofNat 9007199254740991)) = .ok s ∧
      s.toList.filter (fun c => c ≠ ',') = "9007199254740991".toList := by
  obtain ⟨s, hs, _, hf⟩ := formatNumber_digits 9007199254740991 (by decide)
  exact ⟨s, hs, hf.trans (by decide)⟩

set_option maxRecDepth 4000 in
theorem shortestInteger_sample : shortestInteger (2 ^ 64) 1 = 18446744073709552000 := by
  have hd : (Nat.repr (2 ^ 64 / 1)).length = 20 := by decide
  have hr : roundToDouble false (2 ^ 64) 1 = .fin (2 ^ 52) 12 := by decide
  have hs : shortestDecimal (.fin (2 ^ 52) 12) (2 ^ 64) 1 20 17 1 =
      (17, 18446744073709552, 20) := by decide
  unfold shortestInteger
  simp only [hd, hr, hs]
  decide

set_option maxRecDepth 4000 in
theorem formatNumber_digits_counterexample :
    formatNumber (.number (.ofNat (2 ^ 64))) = .ok "18,446,744,073,709,552,000" ∧
    "18,446,744,073,709,552,000".toList.filter (fun c => c ≠ ',') ≠ (Nat.repr (2 ^ 64)).toList := by
  refine ⟨?_, by decide⟩
  have h : (JSNumber.ofNat (2 ^ 64)).toLocaleString =
      "" ++ String.mk (groupThousands (Nat.repr (shortestInteger (2 ^ 64) 1)).toList) := by
    simp [JSNumber.toLocaleString, JSNumber.ofNat, absNum, absDen]
  simp only [formatNumber, JSValue.toLocaleString, h, shortestInteger_sample]
  rfl

/-! ## The formatter `formatBytes` -/

theorem natLogAux_spec (k : Nat) (hk : 2 ≤ k) : ∀ fuel n, 1 ≤ n → n ≤ fuel →
    k ^ natLogAux k fuel n ≤ n ∧ n < k ^ (natLogAux k fuel n + 1) := by
  intro fuel
  induction fuel with
  | zero => intro n h1 h2; omega
  | succ fuel ih =>
    intro n h1 h2
    rw [natLogAux]
    split
    · rename_i hlt
      simpa using ⟨h1, hlt⟩
    · rename_i hge
      push_neg at hge
      have hk0 : 0 < k := by omega
      have hdiv1 : 1 ≤ n / k := (Nat.one_le_div_iff hk0).mpr hge
      have hdiv2 : n / k ≤ fuel := by
        have : n / k < n := Nat.div_lt_self (by omega) (by omega)
        omega
      obtain ⟨ih1, ih2⟩ := ih (n / k) hdiv1 hdiv2
      constructor
      · calc k ^ (natLogAux k fuel (n / k) + 1) = k ^ natLogAux k fuel (n / k) * k := pow_succ _ _
          _ ≤ n / k * k := Nat.mul_le_mul_right _ ih1
          _ ≤ n := Nat.div_mul_le_self n k
      · rw [pow_succ]
        exact (Nat.div_lt_iff_lt_mul hk0).mp ih2

theorem mathPow_1024 (i : Nat) (hi : i ≤ 3) :
    mathPow 1024 (.int i) = .fin (2 ^ 52) (-((52 - 10 * i : Nat) : Int)) := by
  interval_cases i <;> decide

theorem mathFloorLog_ofNat (b : Nat) (hb : 1 ≤ b) :
    mathFloorLog (.ofNat b) 1024 = .int (natLogAux 1024 b b) := by
  have h1 : ¬ ((b : Int) < 0) := by omega
  have h2 : ¬ ((b : Int) = 0) := by omega
  have h3 : 1 ≤ b := hb
  simp [mathFloorLog, JSNumber.ofNat, h1, absNum, absDen, h3]
  omega

/-- C2: `formatBytes(0)` is `"0 B"`; for an integer `1 ≤ bytes < 1024 ^ 4` the index `i`
that `formatBytes` computes is the largest with `1024 ^ i ≤ bytes`, it selects a unit
of `[B, KB, MB, GB]`, and the result is `bytes / 1024 ^ i` with two decimals (the
quotient is exact in binary64, so this is the nearest hundredth, ties upwards), a
space and that unit; `formatBytes(1024)` is `"1.00 KB"` and `formatBytes(1048576)`
is `"1.00 MB"`. -/
theorem formatBytes_units :
    formatBytes (.number (.ofNat 0)) = "0 B" ∧
    (∀ bytes : Nat, 1 ≤ bytes → bytes < 1024 ^ 4 →
      ∃ i unit, sizes.get? i = some unit ∧
        1024 ^ i ≤ bytes ∧ bytes < 1024 ^ (i + 1) ∧
        mathFloorLog (.ofNat bytes) 1024 = .int i ∧
        formatBytes (.number (.ofNat bytes)) =
          ((JSNumber.ofNat bytes).div (mathPow 1024 (.int i))).toFixed 2 ++ " " ++ unit ∧
        formatBytes (.number (.ofNat bytes)) =
          fixedDigits ((2 * bytes * 10 ^ 2 + 1024 ^ i) / (2 * 1024 ^ i)) 2 ++ " " ++ unit ∧
        hasTwoDecimals (fixedDigits ((2 * bytes * 10 ^ 2 + 1024 ^ i) / (2 * 1024 ^ i)) 2) =
          true) ∧
    formatBytes (.number (.ofNat 1024)) = "1.00 KB" ∧
    formatBytes (.number (.ofNat 1048576)) = "1.00 MB" := by
  refine ⟨by rfl, ?_, by rfl, by rfl⟩
  intro bytes h1 h2
  obtain ⟨hlo, hhi⟩ := natLogAux_spec 1024 (by decide) bytes bytes h1 le_rfl
  have hlog := mathFloorLog_ofNat bytes h1
  generalize natLogAux 1024 bytes bytes = i at hlo hhi hlog
  have hi : i ≤ 3 := by
    by_contra hcon
    have : 1024 ^ 4 ≤ 1024 ^ i := Nat.pow_le_pow_right (by decide) (by omega)
    omega
  have hz : ¬ ((bytes : Int) = 0) := by omega
  have hfmt : ∀ unit, sizes.get? i = some unit → formatBytes (.number (.ofNat bytes)) =
      ((JSNumber.ofNat bytes).div (mathPow 1024 (.int i))).toFixed 2 ++ " " ++ unit := by
    intro unit hu
    unfold formatBytes
    simp only [JSValue.strictEqZero, JSValue.toNumber, hlog]
    have : (JSNumber.ofNat bytes).isZero = false := by
      simp [JSNumber.isZero, JSNumber.ofNat, hz]
    simp only [this, Bool.false_eq_true, if_false]
    have : sizesAt (.int (i : Int)) = unit := by
      show (sizes.get? i).getD "undefined" = unit
      rw [hu]; rfl
    rw [this]
  have hexact : ((JSNumber.ofNat bytes).div (mathPow 1024 (.int i))).toFixed 2 =
      fixedDigits ((2 * bytes * 10 ^ 2 + 1024 ^ i) / (2 * 1024 ^ i)) 2 := by
    rw [mathPow_1024 i hi]
    apply toFixed_div_pow_two bytes (52 - 10 * i) (1024 ^ i) (by omega) (by omega) (by omega)
    interval_cases i <;> norm_num
  have hunit : ∃ unit, sizes.get? i = some unit := by
    interval_cases i <;> exact ⟨_, rfl⟩
  obtain ⟨unit, hu⟩ := hunit
  refine ⟨i, unit, hu, hlo, hhi, hlog, hfmt unit hu, ?_, fixedDigits_two_decimals _⟩
  rw [hfmt unit hu, hexact]

theorem formatBytes_units_witness :
    ∃ i unit, sizes.get? i = some unit ∧ 1024 ^ i ≤ 1536 ∧ 1536 < 1024 ^ (i + 1) ∧
      formatBytes (.number (.ofNat 1536)) =
        fixedDigits ((2 * 1536 * 10 ^ 2 + 1024 ^ i) / (2 * 1024 ^ i)) 2 ++ " " ++ unit := by
  obtain ⟨i, unit, h1, h2, h3, _, _, h4, _⟩ := formatBytes_units.2.1 1536 (by decide) (by decide)
  exact ⟨i, unit, h1, h2, h3, h4⟩

/-- Sample values of `formatBytes`, the last one beyond the `sizes` array. -/
theorem formatBytes_samples :
    formatBytes (.number (.ofNat 1536)) = "1.50 KB" ∧
    formatBytes (.number (.ofNat 1048575)) = "1024.00 KB" ∧
    formatBytes (.number (.ofNat 1073741824)) = "1.00 GB" ∧
    formatBytes (.number (.ofNat (1024 ^ 4))) = "1.00 undefined" := by
  refine ⟨by rfl, by rfl, by rfl, by rfl⟩

/-! ## The results table -/

theorem formatNumber_number (x : JSNumber) : formatNumber (.number x) = .ok x.toLocaleString :=
  rfl

theorem formatNumber_undefined : ∃ err, formatNumber .undefined = .error err :=
  ⟨_, rfl⟩

theorem formatDuration_ok (v : JSValue) : ∃ s, formatDuration v = .ok s := by
  cases v with
  | undefined => exact ⟨"NaN s", by rfl⟩
  | number x =>
    unfold formatDuration
    simp only [JSValue.toFixed]
    split
    · exact ⟨_, rfl⟩
    · split
      · exact ⟨_, rfl⟩
      · split
        · exact ⟨_, rfl⟩
        · exact ⟨_, rfl⟩

theorem displayTableRow_of_failed (r : RawResult) (h : r.success = false) :
    displayTableRow r = .ok
      { library := r.library, opsPerSec := "-", avgTime := "-", memory := "-", allocs := "-"
        statusBadge := badgeFailed, errorText := errorText r } := by
  simp [displayTableRow, statusBadge, h]
  rfl

theorem displayTableRow_of_success (r : RawResult) (h : r.success = true) (x y : JSNumber)
    (hx : r.ops_per_second = .number x) (hy : r.allocs_per_op = .number y) :
    ∃ avg, formatDuration r.avg_time_per_parse = .ok avg ∧
      displayTableRow r = .ok
        { library := r.library, opsPerSec := x.toLocaleString, avgTime := avg
          memory := formatBytes r.memory_allocated, allocs := y.toLocaleString
          statusBadge := if r.winner then badgeWinner else badgeSuccess
          errorText := errorText r } := by
  obtain ⟨avg, havg⟩ := formatDuration_ok r.avg_time_per_parse
  refine ⟨avg, havg, ?_⟩
  simp [displayTableRow, statusBadge, h, hx, hy, havg, formatNumber_number]
  rfl

theorem displayTableRow_error (r : RawResult) (h : r.success = true)
    (hm : r.ops_per_second = .undefined ∨ r.allocs_per_op = .undefined) :
    displayTableRow r = .error
      (.typeError "Cannot read properties of undefined (reading 'toLocaleString')") := by
  obtain ⟨avg, havg⟩ := formatDuration_ok r.avg_time_per_parse
  rcases hops : r.ops_per_second with _ | x
  · simp [displayTableRow, h, hops, formatNumber, JSValue.toLocaleString]
    rfl
  · rcases hm with hm | hm
    · rw [hops] at hm; cases hm
    · simp [displayTableRow, h, hops, hm, havg, formatNumber, JSValue.toLocaleString]
      rfl

theorem displayTableLoop_acc (results : List RawResult) : ∀ tbody : List Row,
    displayTableLoop results tbody =
      (tbody ++ (displayTableLoop results []).1, (displayTableLoop results []).2) := by
  induction results with
  | nil => intro tbody; simp [displayTableLoop]
  | cons r rest ih =>
    intro tbody
    simp only [displayTableLoop]
    cases displayTableRow r with
    | error err => simp
    | ok row =>
      simp only [List.nil_append]
      rw [ih (tbody ++ [row]), ih [row]]
      simp

theorem displayTable_nil : displayTable [] = ([], none) := rfl

theorem displayTable_cons_error (r : RawResult) (rest : List RawResult) (err : JSError)
    (h : displayTableRow r = .error err) : displayTable (r :: rest) = ([], some err) := by
  simp [displayTable, displayTableLoop, h]

theorem displayTable_cons_ok (r : RawResult) (rest : List RawResult) (row : Row)
    (h : displayTableRow r = .ok row) :
    displayTable (r :: rest) = (row :: (displayTable rest).1, (displayTable rest).2) := by
  simp only [displayTable, displayTableLoop, h, List.nil_append]
  rw [displayTableLoop_acc rest [row]]
  simp

theorem displayTable_append_error (pre : List RawResult) : ∀ (rows : List Row)
    (r : RawResult) (post : List RawResult) (err : JSError),
    displayTable pre = (rows, none) → displayTableRow r = .error err →
    displayTable (pre ++ r :: post) = (rows, some err) := by
  induction pre with
  | nil =>
    intro rows r post err h hr
    simp [displayTable_nil] at h
    simp [← h, displayTable_cons_error r post err hr]
  | cons p pre ih =>
    intro rows r post err h hr
    cases hp : displayTableRow p with
    | error e => simp [displayTable_cons_error p pre e hp] at h
    | ok row =>
      rw [displayTable_cons_ok p pre row hp] at h
      rw [List.cons_append, displayTable_cons_ok p _ row hp]
      have h1 : (displayTable pre).1 = rows.tail := by
        have := congrArg Prod.fst h; simp at this; simp [← this]
      have h2 : (displayTable pre).2 = none := by
        have := congrArg Prod.snd h; simpa using this
      have h3 : rows = row :: rows.tail := by
        have := congrArg Prod.fst h; simp at this; simp [← this]
      rw [ih rows.tail r post err (Prod.ext h1 h2) hr]
      rw [h3]; simp

theorem displayTable_append_ok (pre : List RawResult) : ∀ (rows : List Row)
    (r : RawResult) (post : List RawResult) (row : Row),
    displayTable pre = (rows, none) → displayTableRow r = .ok row →
    displayTable (pre ++ r :: post) =
      (rows ++ row :: (displayTable post).1, (displayTable post).2) := by
  induction pre with
  | nil =>
    intro rows r post row h hr
    simp [displayTable_nil] at h
    simp [← h, displayTable_cons_ok r post row hr]
  | cons p pre ih =>
    intro rows r post row h hr
    cases hp : displayTableRow p with
    | error e => simp [displayTable_cons_error p pre e hp] at h
    | ok prow =>
      rw [displayTable_cons_ok p pre prow hp] at h
      rw [List.cons_append, displayTable_cons_ok p _ prow hp]
      have h1 : (displayTable pre).1 = rows.tail := by
        have := congrArg Prod.fst h; simp at this; simp [← this]
      have h2 : (displayTable pre).2 = none := by
        have := congrArg Prod.snd h; simpa using this
      have h3 : rows = prow :: rows.tail := by
        have := congrArg Prod.fst h; simp at this; simp [← this]
      rw [ih rows.tail r post row (Prod.ext h1 h2) hr]
      rw [h3]; simp

theorem displayTable_wellFormed (results : List RawResult)
    (hwf : ∀ r ∈ results, r.success = true →
      r.ops_per_second ≠ .undefined ∧ r.allocs_per_op ≠ .undefined) :
    ∃ rows, displayTable results = (rows, none) ∧
      List.Forall₂ (fun r row => displayTableRow r = .ok row) results rows := by
  induction results with
  | nil => exact ⟨[], rfl, List.Forall₂.nil⟩
  | cons r rest ih =>
    obtain ⟨rows, hrows, hall⟩ := ih (fun q hq => hwf q (List.mem_cons_of_mem _ hq))
    have hrow : ∃ row, displayTableRow r = .ok row := by
      cases hs : r.success with
      | false => exact ⟨_, displayTableRow_of_failed r hs⟩
      | true =>
        obtain ⟨h1, h2⟩ := hwf r (List.mem_cons_self _ _) hs
        rcases hx : r.ops_per_second with _ | x
        · exact absurd hx h1
        · rcases hy : r.allocs_per_op with _ | y
          · exact absurd hy h2
          · obtain ⟨avg, _, h⟩ := displayTableRow_of_success r hs x y hx hy
            exact ⟨_, h⟩
    obtain ⟨row, hrow⟩ := hrow
    refine ⟨row :: rows, ?_, List.Forall₂.cons hrow hall⟩
    rw [displayTable_cons_ok r rest row hrow, hrows]

theorem displayTableRow_statusBadge (r : RawResult) (row : Row)
    (h : displayTableRow r = .ok row) : row.statusBadge = statusBadge r := by
  cases hs : r.success with
  | false =>
    rw [displayTableRow_of_failed r hs] at h
    cases h
    simp [statusBadge, hs]
  | true =>
    rcases hx : r.ops_per_second with _ | x
    · rw [displayTableRow_error r hs (Or.inl hx)] at h; cases h
    · rcases hy : r.allocs_per_op with _ | y
      · rw [displayTableRow_error r hs (Or.inr hy)] at h; cases h
      · obtain ⟨avg, _, h'⟩ := displayTableRow_of_success r hs x y hx hy
        rw [h'] at h
        cases h
        simp [statusBadge, hs]

theorem statusBadge_eq_winner (r : RawResult) :
    statusBadge r = badgeWinner ↔ (r.success = true ∧ r.winner = true) := by
  unfold statusBadge
  cases r.success <;> cases r.winner <;> simp <;> decide

theorem statusBadge_eq_failed (r : RawResult) :
    statusBadge r = badgeFailed ↔ r.success = false := by
  unfold statusBadge
  cases r.success <;> cases r.winner <;> simp <;> decide

theorem countP_winner (results : List RawResult) (rows : List Row)
    (h : List.Forall₂ (fun r row => displayTableRow r = .ok row) results rows) :
    rows.countP (fun row => row.statusBadge = badgeWinner) =
      results.countP (fun r => r.success && r.winner) := by
  induction h with
  | nil => rfl
  | @cons r row rest rows' hrow _ ih =>
    rw [List.countP_cons, List.countP_cons, ih]
    congr 1
    have hb := displayTableRow_statusBadge r row hrow
    have hw := statusBadge_eq_winner r
    rw [← hb] at hw
    by_cases hc : row.statusBadge = badgeWinner
    · have := hw.mp hc
      simp [hc, this.1, this.2]
    · have hn : ¬ (r.success = true ∧ r.winner = true) := fun hh => hc (hw.mpr hh)
      simp only [hc, decide_False, Bool.false_eq_true, if_false]
      cases hs : r.success <;> cases hw' : r.winner <;> simp_all

/-- C5 (as amended): on a result list whose successful entries all carry `ops_per_second`
and `allocs_per_op`, `displayTable` builds one row per entry, in order; the row's
status is Failed when `success` is false, Winner when `success` and `winner` are
true, Success otherwise; and the rows with Winner status are as many as the entries
with `success` and `winner` true. -/
theorem displayTable_status (results : List RawResult)
    (hwf : ∀ r ∈ results, r.success = true →
      r.ops_per_second ≠ .undefined ∧ r.allocs_per_op ≠ .undefined) :
    ∃ rows, displayTable results = (rows, none) ∧
      List.Forall₂ (fun r row =>
        (r.success = false → row.statusBadge = badgeFailed) ∧
        (r.success = true → r.winner = true → row.statusBadge = badgeWinner) ∧
        (r.success = true → r.winner = false → row.statusBadge = badgeSuccess))
        results rows ∧
      rows.countP (fun row => row.statusBadge = badgeWinner) =
        results.countP (fun r => r.success && r.winner) := by
  obtain ⟨rows, hrows, hall⟩ := displayTable_wellFormed results hwf
  refine ⟨rows, hrows, ?_, countP_winner results rows hall⟩
  refine hall.imp ?_
  intro r row hrow
  have hb := displayTableRow_statusBadge r row hrow
  rw [hb]
  refine ⟨?_, ?_, ?_⟩
  · intro hs; simp [statusBadge, hs]
  · intro hs hw; simp [statusBadge, hs, hw]
  · intro hs hw; simp [statusBadge, hs, hw]

theorem displayTable_status_witness :
    ∃ rows, displayTable [sampleSuccess, sampleWinner, sampleWinner, sampleFailed] = (rows, none) ∧
      rows.countP (fun row => row.statusBadge = badgeWinner) = 2 := by
  obtain ⟨rows, h, _, hc⟩ :=
    displayTable_status [sampleSuccess, sampleWinner, sampleWinner, sampleFailed] (by decide)
  exact ⟨rows, h, hc.trans (by decide)⟩

theorem displayTable_status_counterexample :
    displayTable [sampleMissingOps] =
      ([], some (.typeError "Cannot read properties of undefined (reading 'toLocaleString')")) ∧
    (displayTable [sampleMissingOps]).1.countP (fun row => row.statusBadge = badgeWinner) ≠
      [sampleMissingOps].countP (fun r => r.success && r.winner) := by
  constructor
  · rfl
  · decide

/-- C6: the row `displayTable` builds for an entry with `success = false` shows `"-"` in the
four numeric columns and the status Failed; its error text is the entry's `error`
string, and there is none when `error` is absent (or empty). -/
theorem displayTable_failed_row (r : RawResult) (h : r.success = false) :
    ∃ row, displayTableRow r = .ok row ∧
      row.library = r.library ∧
      row.opsPerSec = "-" ∧ row.avgTime = "-" ∧ row.memory = "-" ∧ row.allocs = "-" ∧
      row.statusBadge = badgeFailed ∧
      (r.error = none → row.errorText = "") ∧
      (∀ e, r.error = some e → e ≠ "" → row.errorText = "<br><small>" ++ e ++ "</small>") ∧
      (r.error = some "" → row.errorText = "") ∧
      (∀ pre post rows, displayTable pre = (rows, none) →
        (displayTable (pre ++ r :: post)).1.get? rows.length = some row) := by
  refine ⟨_, displayTableRow_of_failed r h, rfl, rfl, rfl, rfl, rfl, rfl, ?_, ?_, ?_, ?_⟩
  · intro he; simp [errorText, he]
  · intro e he hne; simp [errorText, he, hne]
  · intro he; simp [errorText, he]
  · intro pre post rows hpre
    rw [displayTable_append_ok pre rows r post _ hpre (displayTableRow_of_failed r h)]
    rw [List.get?_eq_getElem?, List.getElem?_append_right (le_refl _)]
    simp

theorem displayTable_failed_row_witness :
    displayTable [sampleFailed] =
      ([{ library := "libC", opsPerSec := "-", avgTime := "-", memory := "-", allocs := "-"
          statusBadge := badgeFailed, errorText := "<br><small>timeout</small>" }], none) := by
  obtain ⟨row, hrow, h1, h2, h3, h4, h5, h6, _, h8, _, _⟩ :=
    displayTable_failed_row sampleFailed rfl
  have he := h8 "timeout" rfl (by decide)
  rw [displayTable_cons_ok sampleFailed [] row hrow, displayTable_nil]
  cases row
  simp_all [sampleFailed]

/-- C7 (as amended): for an entry with `success = true`, an absent `ops_per_second` or
`allocs_per_op` makes `formatNumber` raise a `TypeError`, which ends `displayTable`:
the rows of the earlier entries stay, the entry and the later ones get no row.  With
both present the row is built, an absent `avg_time_per_parse` reading `"NaN s"` and
an absent `memory_allocated` reading `"NaN undefined"`. -/
theorem displayTable_missing_field (r : RawResult) (h : r.success = true) :
    ((r.ops_per_second = .undefined ∨ r.allocs_per_op = .undefined) →
      ∃ err, displayTableRow r = .error err ∧
        ∀ pre post rows, displayTable pre = (rows, none) →
          displayTable (pre ++ r :: post) = (rows, some err)) ∧
    (r.ops_per_second ≠ .undefined → r.allocs_per_op ≠ .undefined →
      ∃ row, displayTableRow r = .ok row ∧
        (r.avg_time_per_parse = .undefined → row.avgTime = "NaN s") ∧
        (r.memory_allocated = .undefined → row.memory = "NaN undefined")) := by
  constructor
  · intro hm
    refine ⟨_, displayTableRow_error r h hm, ?_⟩
    intro pre post rows hpre
    exact displayTable_append_error pre rows r post _ hpre (displayTableRow_error r h hm)
  · intro h1 h2
    rcases hx : r.ops_per_second with _ | x
    · exact absurd hx h1
    · rcases hy : r.allocs_per_op with _ | y
      · exact absurd hy h2
      · obtain ⟨avg, havg, hrow⟩ := displayTableRow_of_success r h x y hx hy
        refine ⟨_, hrow, ?_, ?_⟩
        · intro hu
          rw [hu] at havg
          have : formatDuration .undefined = .ok "NaN s" := by rfl
          rw [this] at havg
          cases havg
          rfl
        · intro hu
          show formatBytes r.memory_allocated = "NaN undefined"
          rw [hu]
          rfl

theorem displayTable_missing_field_witness :
    (∃ err, displayTable [sampleSuccess, sampleMissingOps, sampleWinner] =
      ((displayTable [sampleSuccess]).1, some err)) ∧
    (∃ row, displayTableRow sampleMissingTime = .ok row ∧
      row.avgTime = "NaN s" ∧ row.memory = "NaN undefined") := by
  obtain ⟨h1, h2⟩ := displayTable_missing_field sampleMissingOps rfl
  obtain ⟨h3, h4⟩ := displayTable_missing_field sampleMissingTime rfl
  constructor
  · obtain ⟨err, _, herr⟩ := h1 (Or.inl rfl)
    exact ⟨err, herr [sampleSuccess] [sampleWinner] _ (by rfl)⟩
  · obtain ⟨row, hrow, ha, hb⟩ := h4 (by decide) (by decide)
    exact ⟨row, hrow, ha rfl, hb rfl⟩

theorem displayTable_missing_field_counterexample :
    displayTableRow sampleMissingOps =
      .error (.typeError "Cannot read properties of undefined (reading 'toLocaleString')") ∧
    displayTable [sampleMissingOps, sampleSuccess] =
      ([], some (.typeError "Cannot read properties of undefined (reading 'toLocaleString')")) ∧
    (displayTableRow sampleMissingTime).toOption.map (fun row => (row.avgTime, row.memory)) =
      some ("NaN s", "NaN undefined") := by
  refine ⟨by rfl, by rfl, by rfl⟩

/-! ## Validation in `runBenchmark` -/

/-- C8: with a message that is empty after trimming, or with no library selected,
`runBenchmark` calls `alert` once and changes nothing else: no request is issued, the
loading indicator is not shown and the submit control is not disabled. -/
theorem runBenchmark_validation (backend : BenchmarkRequest → FetchResult) (p : Page)
    (h : jsTrim p.httpMessage = "" ∨ ∀ cb ∈ p.checkboxes, cb.2 = false) :
    ∃ text, runBenchmark backend p = { p with alerts := p.alerts ++ [text] } ∧
      (runBenchmark backend p).requests = p.requests ∧
      (runBenchmark backend p).loadingDisplay = p.loadingDisplay ∧
      (runBenchmark backend p).runBenchmarkDisabled = p.runBenchmarkDisabled := by
  by_cases hm : jsTrim p.httpMessage = ""
  · refine ⟨"Please enter an HTTP message", ?_⟩
    have : runBenchmark backend p = { p with alerts := p.alerts ++ ["Please enter an HTTP message"] } := by
      simp [runBenchmark, hm, alert]
    rw [this]
    exact ⟨rfl, rfl, rfl, rfl⟩
  · have hl : ∀ cb ∈ p.checkboxes, cb.2 = false := by
      rcases h with h | h
      · exact absurd h hm
      · exact h
    have hf : (p.checkboxes.filter fun cb => cb.2) = [] := by
      rw [List.filter_eq_nil_iff]
      intro cb hcb
      simp [hl cb hcb]
    refine ⟨"Please select at least one parser library", ?_⟩
    have : runBenchmark backend p =
        { p with alerts := p.alerts ++ ["Please select at least one parser library"] } := by
      simp [runBenchmark, hm, hf, alert]
    rw [this]
    exact ⟨rfl, rfl, rfl, rfl⟩

theorem runBenchmark_validation_witness :
    ∃ text, runBenchmark (fun _ => .rejected "Failed to fetch") sampleBlankPage =
      { sampleBlankPage with alerts := [text] } := by
  obtain ⟨text, h, _⟩ :=
    runBenchmark_validation (fun _ => .rejected "Failed to fetch") sampleBlankPage
      (Or.inl (by decide))
  exact ⟨text, h⟩

theorem runBenchmark_submits :
    (runBenchmark (fun _ => .rejected "Failed to fetch") sampleReadyPage).requests =
      [{ message := "GET / HTTP/1.1", message_type := "request", iterations := .ofNat 1000
         concurrency := .ofNat 4, libraries := ["libA"] }] := by
  decide

/-! ## Charts -/

theorem liveCharts_concat (calls : List EngineCall) (c : EngineCall) :
    liveCharts (calls ++ [c]) = applyCall (liveCharts calls) c := by
  simp [liveCharts, List.foldl_append]

theorem history_concat (calls : List EngineCall) (c : EngineCall)
    (h : ∀ log, log <+: calls → AtMostOne (liveCharts log))
    (hc : AtMostOne (liveCharts (calls ++ [c]))) :
    ∀ log, log <+: calls ++ [c] → AtMostOne (liveCharts log) := by
  intro log hlog
  rcases List.prefix_concat_iff.mp hlog with h1 | h1
  · rw [h1]; exact hc
  · exact h log h1

theorem atMostOne_nil : AtMostOne [] := by
  intro canvas; simp

theorem atMostOne_single (c : Nat × String) : AtMostOne [c] := by
  intro canvas
  simp only [List.filter_cons, List.filter_nil]
  split <;> simp

theorem atMostOne_pair (a b : Nat) (s t : String) (hst : s ≠ t) : AtMostOne [(a, s), (b, t)] := by
  intro canvas
  simp only [List.filter_cons, List.filter_nil]
  by_cases h1 : s = canvas
  · have h2 : ¬ t = canvas := fun h => hst (h1.trans h.symm)
    simp [h1, h2]
  · by_cases h2 : t = canvas <;> simp [h1, h2]

theorem displayCharts_of_no_success (results : List RawResult) (st : Charts)
    (h : ∀ r ∈ results, r.success = false) : displayCharts results st = st := by
  have hf : (results.filter fun r => r.success) = [] := by
    rw [List.filter_eq_nil_iff]
    intro r hr
    simp [h r hr]
  simp [displayCharts, hf]

theorem displayCharts_of_success (results : List RawResult) (st : Charts)
    (h : ∃ r ∈ results, r.success = true) :
    displayCharts results st =
      { opsChart := some (destroyIfPresent st.opsChart st.engine).length
        timeChart := some (destroyIfPresent st.timeChart
          (destroyIfPresent st.opsChart st.engine ++
            [.create (destroyIfPresent st.opsChart st.engine).length "opsChart"
              (opsConfig (results.filter fun r => r.success))])).length
        engine := destroyIfPresent st.timeChart
          (destroyIfPresent st.opsChart st.engine ++
            [.create (destroyIfPresent st.opsChart st.engine).length "opsChart"
              (opsConfig (results.filter fun r => r.success))]) ++
          [.create (destroyIfPresent st.timeChart
            (destroyIfPresent st.opsChart st.engine ++
              [.create (destroyIfPresent st.opsChart st.engine).length "opsChart"
                (opsConfig (results.filter fun r => r.success))])).length "timeChart"
            (timeConfig (results.filter fun r => r.success))] } := by
  obtain ⟨r, hr, hs⟩ := h
  have hf : (results.filter fun r => r.success) ≠ [] := by
    intro hnil
    have : r ∈ results.filter fun r => r.success := List.mem_filter.mpr ⟨hr, by simp [hs]⟩
    rw [hnil] at this
    cases this
  have hlen : ¬ (results.filter fun r => r.success).length = 0 := by
    intro h0
    exact hf (List.length_eq_zero.mp h0)
  simp only [displayCharts, hlen, if_false]

theorem destroyIfPresent_eq (chart : Option Nat) (engine : List EngineCall) :
    destroyIfPresent chart engine = engine ++ chart.toList.map EngineCall.destroy := by
  cases chart <;> simp [destroyIfPresent]

theorem chartsInv_initial : ChartsInv Charts.initial where
  live := rfl
  opsBound := by intro c h; cases h
  timeBound := by intro c h; cases h
  distinct := by intro a b h; cases h
  history := by
    intro log hlog
    have : log = [] := List.prefix_nil.mp hlog
    rw [this]
    exact atMostOne_nil

theorem chartsInv_render (st : Charts) (inv : ChartsInv st) (cfg₁ cfg₂ : ChartConfig) :
    ChartsInv
      { opsChart := some (destroyIfPresent st.opsChart st.engine).length
        timeChart := some (destroyIfPresent st.timeChart
          (destroyIfPresent st.opsChart st.engine ++
            [EngineCall.create (destroyIfPresent st.opsChart st.engine).length "opsChart"
              cfg₁])).length
        engine := destroyIfPresent st.timeChart
          (destroyIfPresent st.opsChart st.engine ++
            [EngineCall.create (destroyIfPresent st.opsChart st.engine).length "opsChart"
              cfg₁]) ++
          [EngineCall.create (destroyIfPresent st.timeChart
            (destroyIfPresent st.opsChart st.engine ++
              [EngineCall.create (destroyIfPresent st.opsChart st.engine).length "opsChart"
                cfg₁])).length "timeChart" cfg₂] } := by
  obtain ⟨ops, time, engine⟩ := st
  have hlive := inv.live
  have hhist := inv.history
  have hob := inv.opsBound
  have htb := inv.timeBound
  have hd := inv.distinct
  simp only [storedCharts] at hlive
  simp only at hhist hob htb hd hlive
  cases ops with
  | none =>
    cases time with
    | none =>
      simp only [destroyIfPresent, Option.toList, List.map_nil, List.append_nil] at hlive ⊢
      have l1 : liveCharts (engine ++ [EngineCall.create engine.length "opsChart" cfg₁]) =
          [(engine.length, "opsChart")] := by
        rw [liveCharts_concat, hlive]; rfl
      have s1 := history_concat _ _ hhist (by rw [l1]; exact atMostOne_single _)
      have l2 : liveCharts (engine ++ [EngineCall.create engine.length "opsChart" cfg₁] ++
          [EngineCall.create (engine ++ [EngineCall.create engine.length "opsChart"
            cfg₁]).length "timeChart" cfg₂]) =
          [(engine.length, "opsChart"), (engine.length + 1, "timeChart")] := by
        rw [liveCharts_concat, l1]; simp [applyCall]
      have s2 := history_concat _ _ s1 (by rw [l2]; exact atMostOne_pair _ _ _ _ (by decide))
      refine ⟨?_, ?_, ?_, ?_, s2⟩
      · rw [l2]; simp [storedCharts]
      · intro c hc; simp at hc; simp; omega
      · intro c hc; simp at hc; simp; omega
      · intro a b ha hb; simp at ha hb; omega
    | some t =>
      have ht := htb t rfl
      simp only [destroyIfPresent, Option.toList, List.map_nil, List.map_cons,
        List.nil_append] at hlive ⊢
      have l1 : liveCharts (engine ++ [EngineCall.create engine.length "opsChart" cfg₁]) =
          [(t, "timeChart"), (engine.length, "opsChart")] := by
        rw [liveCharts_concat, hlive]; rfl
      have s1 := history_concat _ _ hhist (by rw [l1]; exact atMostOne_pair _ _ _ _ (by decide))
      have l2 : liveCharts (engine ++ [EngineCall.create engine.length "opsChart" cfg₁] ++
          [EngineCall.destroy t]) = [(engine.length, "opsChart")] := by
        rw [liveCharts_concat, l1]
        have : engine.length ≠ t := by omega
        simp [applyCall, this]
      have s2 := history_concat _ _ s1 (by rw [l2]; exact atMostOne_single _)
      have l3 : liveCharts (engine ++ [EngineCall.create engine.length "opsChart" cfg₁] ++
          [EngineCall.destroy t] ++
          [EngineCall.create (engine ++ [EngineCall.create engine.length "opsChart" cfg₁] ++
            [EngineCall.destroy t]).length "timeChart" cfg₂]) =
          [(engine.length, "opsChart"), (engine.length + 2, "timeChart")] := by
        rw [liveCharts_concat, l2]; simp [applyCall]
      have s3 := history_concat _ _ s2 (by rw [l3]; exact atMostOne_pair _ _ _ _ (by decide))
      refine ⟨?_, ?_, ?_, ?_, s3⟩
      · rw [l3]; simp [storedCharts]
      · intro c hc; simp at hc; simp; omega
      · intro c hc; simp at hc; simp; omega
      · intro a b ha hb; simp at ha hb; omega
  | some o =>
    have ho := hob o rfl
    cases time with
    | none =>
      simp only [destroyIfPresent, Option.toList, List.map_nil, List.map_cons,
        List.append_nil] at hlive ⊢
      have l1 : liveCharts (engine ++ [EngineCall.destroy o]) = [] := by
        rw [liveCharts_concat, hlive]; simp [applyCall]
      have s1 := history_concat _ _ hhist (by rw [l1]; exact atMostOne_nil)
      have l2 : liveCharts (engine ++ [EngineCall.destroy o] ++
          [EngineCall.create (engine ++ [EngineCall.destroy o]).length "opsChart" cfg₁]) =
          [(engine.length + 1, "opsChart")] := by
        rw [liveCharts_concat, l1]; simp [applyCall]
      have s2 := history_concat _ _ s1 (by rw [l2]; exact atMostOne_single _)
      have l3 : liveCharts (engine ++ [EngineCall.destroy o] ++
          [EngineCall.create (engine ++ [EngineCall.destroy o]).length "opsChart" cfg₁] ++
          [EngineCall.create (engine ++ [EngineCall.destroy o] ++
            [EngineCall.create (engine ++ [EngineCall.destroy o]).length "opsChart"
              cfg₁]).length "timeChart" cfg₂]) =
          [(engine.length + 1, "opsChart"), (engine.length + 2, "timeChart")] := by
        rw [liveCharts_concat, l2]; simp [applyCall]
      have s3 := history_concat _ _ s2 (by rw [l3]; exact atMostOne_pair _ _ _ _ (by decide))
      refine ⟨?_, ?_, ?_, ?_, s3⟩
      · rw [l3]; simp [storedCharts]
      · intro c hc; simp at hc; simp; omega
      · intro c hc; simp at hc; simp; omega
      · intro a b ha hb; simp at ha hb; omega
    | some t =>
      have ht := htb t rfl
      have hot := hd o t rfl rfl
      simp only [destroyIfPresent, Option.toList, List.map_nil, List.map_cons,
        List.singleton_append] at hlive ⊢
      have l1 : liveCharts (engine ++ [EngineCall.destroy o]) = [(t, "timeChart")] := by
        rw [liveCharts_concat, hlive]
        have : t ≠ o := fun h => hot h.symm
        simp [applyCall, this]
      have s1 := history_concat _ _ hhist (by rw [l1]; exact atMostOne_single _)
      have l2 : liveCharts (engine ++ [EngineCall.destroy o] ++
          [EngineCall.create (engine ++ [EngineCall.destroy o]).length "opsChart" cfg₁]) =
          [(t, "timeChart"), (engine.length + 1, "opsChart")] := by
        rw [liveCharts_concat, l1]; simp [applyCall]
      have s2 := history_concat _ _ s1 (by rw [l2]; exact atMostOne_pair _ _ _ _ (by decide))
      have l3 : liveCharts (engine ++ [EngineCall.destroy o] ++
          [EngineCall.create (engine ++ [EngineCall.destroy o]).length "opsChart" cfg₁] ++
          [EngineCall.destroy t]) = [(engine.length + 1, "opsChart")] := by
        rw [liveCharts_concat, l2]
        have : engine.length + 1 ≠ t := by omega
        simp [applyCall, this]
      have s3 := history_concat _ _ s2 (by rw [l3]; exact atMostOne_single _)
      have l4 : liveCharts (engine ++ [EngineCall.destroy o] ++
          [EngineCall.create (engine ++ [EngineCall.destroy o]).length "opsChart" cfg₁] ++
          [EngineCall.destroy t] ++
          [EngineCall.create (engine ++ [EngineCall.destroy o] ++
            [EngineCall.create (engine ++ [EngineCall.destroy o]).length "opsChart" cfg₁] ++
            [EngineCall.destroy t]).length "timeChart" cfg₂]) =
          [(engine.length + 1, "opsChart"), (engine.length + 3, "timeChart")] := by
        rw [liveCharts_concat, l3]; simp [applyCall]
      have s4 := history_concat _ _ s3 (by rw [l4]; exact atMostOne_pair _ _ _ _ (by decide))
      refine ⟨?_, ?_, ?_, ?_, s4⟩
      · rw [l4]; simp [storedCharts]
      · intro c hc; simp at hc; simp; omega
      · intro c hc; simp at hc; simp; omega
      · intro a b ha hb; simp at ha hb; omega

theorem chartsInv_displayCharts (results : List RawResult) (st : Charts) (inv : ChartsInv st) :
    ChartsInv (displayCharts results st) := by
  by_cases h : ∃ r ∈ results, r.success = true
  · rw [displayCharts_of_success results st h]
    exact chartsInv_render st inv _ _
  · have h' : ∀ r ∈ results, r.success = false := by
      intro r hr
      by_contra hs
      exact h ⟨r, hr, by simpa using hs⟩
    rw [displayCharts_of_no_success results st h']
    exact inv

theorem chartsInv_foldl (runs : List (List RawResult)) : ∀ st : Charts, ChartsInv st →
    ChartsInv (runs.foldl (fun st results => displayCharts results st) st) := by
  induction runs with
  | nil => intro st inv; exact inv
  | cons results runs ih =>
    intro st inv
    exact ih _ (chartsInv_displayCharts results st inv)

theorem chartsInv_chartsAfter (runs : List (List RawResult)) : ChartsInv (chartsAfter runs) :=
  chartsInv_foldl runs _ chartsInv_initial

/-- C9: starting with no charts, after any sequence of `displayCharts` calls the live chart
instances are exactly the stored handles, so at most one is live on the throughput
canvas and at most one on the latency canvas, and this held after every engine call
made on the way.  A call with no successful entry leaves the state (the stored
handles and the engine log) unchanged; a call with a successful entry destroys the
stored throughput instance, creates its replacement, destroys the stored latency
instance, creates its replacement, in this order, and stores the two new handles. -/
theorem displayCharts_single_instance :
    (∀ runs : List (List RawResult),
      liveCharts (chartsAfter runs).engine = storedCharts (chartsAfter runs) ∧
      ((liveCharts (chartsAfter runs).engine).filter fun c => c.2 = "opsChart").length ≤ 1 ∧
      ((liveCharts (chartsAfter runs).engine).filter fun c => c.2 = "timeChart").length ≤ 1 ∧
      ∀ log, log <+: (chartsAfter runs).engine → AtMostOne (liveCharts log)) ∧
    (∀ (results : List RawResult) (st : Charts),
      (∀ r ∈ results, r.success = false) → displayCharts results st = st) ∧
    (∀ (results : List RawResult) (st : Charts),
      (∃ r ∈ results, r.success = true) →
      ∃ c₁ c₂ cfg₁ cfg₂,
        (displayCharts results st).engine =
          st.engine ++ st.opsChart.toList.map EngineCall.destroy ++
            [EngineCall.create c₁ "opsChart" cfg₁] ++
            st.timeChart.toList.map EngineCall.destroy ++
            [EngineCall.create c₂ "timeChart" cfg₂] ∧
        (displayCharts results st).opsChart = some c₁ ∧
        (displayCharts results st).timeChart = some c₂) := by
  refine ⟨?_, displayCharts_of_no_success, ?_⟩
  · intro runs
    have inv := chartsInv_chartsAfter runs
    have hall := inv.history _ (List.prefix_refl _)
    exact ⟨inv.live, hall "opsChart", hall "timeChart", inv.history⟩
  · intro results st h
    rw [displayCharts_of_success results st h]
    refine ⟨(destroyIfPresent st.opsChart st.engine).length,
      (destroyIfPresent st.timeChart
        (destroyIfPresent st.opsChart st.engine ++
          [EngineCall.create (destroyIfPresent st.opsChart st.engine).length "opsChart"
            (opsConfig (results.filter fun r => r.success))])).length,
      opsConfig (results.filter fun r => r.success),
      timeConfig (results.filter fun r => r.success), ?_, rfl, rfl⟩
    simp only [destroyIfPresent_eq]

theorem displayCharts_single_instance_witness :
    liveCharts (chartsAfter [[sampleSuccess, sampleWinner], [sampleFailed], [sampleWinner]]).engine
      = [(3, "opsChart"), (5, "timeChart")] ∧
    displayCharts [sampleFailed] (chartsAfter [[sampleSuccess]]) = chartsAfter [[sampleSuccess]] := by
  obtain ⟨h1, h2, _⟩ := displayCharts_single_instance
  refine ⟨?_, h2 _ _ (by decide)⟩
  rw [(h1 _).1]
  decide

/-- C4: every chart `displayCharts` hands to the engine is drawn from the entries with
`success = true`, in their original order: the labels are their library names, the
throughput data their raw `ops_per_second`, the latency data their
`avg_time_per_parse / 1000`, and the colours follow each entry's `winner` flag; each
series has as many points as there are successful entries. -/
theorem displayCharts_series (results : List RawResult) (st : Charts) :
    ∃ calls, (displayCharts results st).engine = st.engine ++ calls ∧
      (∀ chart canvas config, EngineCall.create chart canvas config ∈ calls →
        config.labels = (results.filter fun r => r.success).map (fun r => r.library) ∧
        (canvas = "opsChart" ∧
            config.data = (results.filter fun r => r.success).map (fun r => r.ops_per_second) ∧
            config.backgroundColor = (results.filter fun r => r.success).map (fun r =>
              if r.winner then "rgba(251, 191, 36, 0.8)" else "rgba(59, 130, 246, 0.8)") ∧
            config.borderColor = (results.filter fun r => r.success).map (fun r =>
              if r.winner then "rgb(251, 191, 36)" else "rgb(59, 130, 246)")
          ∨ canvas = "timeChart" ∧
            config.data = (results.filter fun r => r.success).map (fun r =>
              JSValue.number (r.avg_time_per_parse.toNumber.div (.ofNat 1000))) ∧
            config.backgroundColor = (results.filter fun r => r.success).map (fun r =>
              if r.winner then "rgba(16, 185, 129, 0.8)" else "rgba(139, 92, 246, 0.8)") ∧
            config.borderColor = (results.filter fun r => r.success).map (fun r =>
              if r.winner then "rgb(16, 185, 129)" else "rgb(139, 92, 246)")) ∧
        config.labels.length = results.countP (fun r => r.success) ∧
        config.data.length = results.countP (fun r => r.success)) ∧
      ((∃ r ∈ results, r.success = true) →
        (∃ chart config, EngineCall.create chart "opsChart" config ∈ calls) ∧
        (∃ chart config, EngineCall.create chart "timeChart" config ∈ calls)) ∧
      (results.filter fun r => r.success).Sublist results ∧
      (∀ r ∈ results.filter fun r => r.success, r.success = true) := by
  by_cases h : ∃ r ∈ results, r.success = true
  · rw [displayCharts_of_success results st h]
    refine ⟨st.opsChart.toList.map EngineCall.destroy ++
        [EngineCall.create (destroyIfPresent st.opsChart st.engine).length "opsChart"
          (opsConfig (results.filter fun r => r.success))] ++
        st.timeChart.toList.map EngineCall.destroy ++
        [EngineCall.create (destroyIfPresent st.timeChart
          (destroyIfPresent st.opsChart st.engine ++
            [EngineCall.create (destroyIfPresent st.opsChart st.engine).length "opsChart"
              (opsConfig (results.filter fun r => r.success))])).length "timeChart"
          (timeConfig (results.filter fun r => r.success))], ?_, ?_, ?_, ?_, ?_⟩
    · simp only [destroyIfPresent_eq, List.append_assoc]
    · intro chart canvas config hmem
      simp only [List.mem_append, List.mem_map, List.mem_singleton] at hmem
      rcases hmem with ((⟨_, _, hd⟩ | hc) | ⟨_, _, hd⟩) | hc
      · cases hd
      · cases hc
        refine ⟨rfl, Or.inl ⟨rfl, rfl, rfl, rfl⟩, ?_, ?_⟩ <;>
          simp [opsConfig, List.countP_eq_length_filter]
      · cases hd
      · cases hc
        refine ⟨rfl, Or.inr ⟨rfl, rfl, rfl, rfl⟩, ?_, ?_⟩ <;>
          simp [timeConfig, List.countP_eq_length_filter]
    · intro _
      exact ⟨⟨(destroyIfPresent st.opsChart st.engine).length,
          opsConfig (results.filter fun r => r.success), by simp⟩,
        ⟨(destroyIfPresent st.timeChart
          (destroyIfPresent st.opsChart st.engine ++
            [EngineCall.create (destroyIfPresent st.opsChart st.engine).length "opsChart"
              (opsConfig (results.filter fun r => r.success))])).length,
          timeConfig (results.filter fun r => r.success), by simp⟩⟩
    · exact List.filter_sublist _
    · intro r hr
      simpa using (List.mem_filter.mp hr).2
  · have h' : ∀ r ∈ results, r.success = false := by
      intro r hr
      by_contra hs
      exact h ⟨r, hr, by simpa using hs⟩
    rw [displayCharts_of_no_success results st h']
    refine ⟨[], by simp, ?_, fun hh => absurd hh h, List.filter_sublist _, ?_⟩
    · intro chart canvas config hmem
      cases hmem
    · intro r hr
      simpa using (List.mem_filter.mp hr).2

/-! ## The scenarios of the specification -/

/-- The end-to-end scenario of the specification: two successful entries, `libB` the
winner. -/
theorem scenario_two_successes :
    displayTable [sampleSuccess, sampleWinner] =
      ([{ library := "libA", opsPerSec := "500,000", avgTime := "2.00 μs"
          memory := "128.00 B", allocs := "2", statusBadge := badgeSuccess, errorText := "" },
        { library := "libB", opsPerSec := "750,000", avgTime := "1.33 μs"
          memory := "96.00 B", allocs := "1", statusBadge := badgeWinner, errorText := "" }],
       none) ∧
    (displayCharts [sampleSuccess, sampleWinner] Charts.initial).engine.map
        (fun call => match call with
          | .create _ canvas config =>
            (canvas, config.labels, config.data.map fun v => v.toNumber.toFixed 2,
              config.backgroundColor)
          | .destroy _ => ("", [], [], [])) =
      [("opsChart", ["libA", "libB"], ["500000.00", "750000.00"],
          ["rgba(59, 130, 246, 0.8)", "rgba(251, 191, 36, 0.8)"]),
       ("timeChart", ["libA", "libB"], ["2.00", "1.33"],
          ["rgba(139, 92, 246, 0.8)", "rgba(16, 185, 129, 0.8)"])] := by
  refine ⟨by rfl, by rfl⟩

/-- The scenario with one failure: the table shows the failed row, no chart is drawn. -/
theorem scenario_one_failure :
    displayCharts [sampleFailed] Charts.initial = Charts.initial := by
  rfl

end ParseInsight
